import Mathlib

/-!
Verification of the deterministic clause-processing engine of the
legal-doc-simplifier repository.

The engine consists of the following Python modules, which are shallowly
embedded below as executable Lean functions over `List Char`
(the embedding works on Python strings as lists of characters):

  * src/ml/rule_based_simplifier.py   (RuleBasedSimplifier)
  * src/ml/clause_extractor.py        (ClauseExtractor)
  * src/ml/entity_extractor.py        (EntityExtractor)
  * src/ml/risk_assessor.py           (RiskAssessor)
  * src/validators/simplify_validators.py (SimplifyValidator)
  * src/schemas/simplify_output.py    (pydantic SimplifyOutput / Clause)
  * src/pipelines/simplification.py   (SimplificationPipeline)

Modelling conventions:

  * Python `str` is modelled by `List Char` (`Str` below).  All inputs of
    interest are ASCII; `Char.toLower`, `Char.isAlpha`, `Char.isDigit`
    agree with Python's `str.lower`, `str.isalpha`, `\d` on ASCII.
  * Each regular expression that occurs in the source is compiled, by
    hand, into a dedicated matcher.  The regexes use only word-boundary
    bracketed literal alternations, optional pieces (expanded into the
    alternative lists in the exact backtracking preference order of the
    Python `re` engine), `\s+`/`\s?`, `\d`-classes and `[^.]*`.  Greedy
    pieces are compiled to maximal-munch scans; this is justified at each
    use site because the character class of the greedy piece is disjoint
    from the possible first characters of the pattern continuation, so
    Python's backtracking engine also commits to the maximal munch.
  * `re.sub` scans the original string left to right, replaces
    non-overlapping matches and continues after the matched span; the
    scanning harnesses below do exactly that, threading the previous
    original character for `\b` lookarounds.
  * Side effects (file writes of the known-bad log) are modelled as
    returned data: the pipeline returns the list of `log_known_bad` /
    `_log_bad` invocations it performs, and the dedup store is an explicit
    state machine (`BadState`).  `json.dumps`/`json.loads` round-tripping
    is abstracted: the pipeline's response dictionary is modelled
    structurally (`Response`, `responseJson`), and the validator receives
    the structured value (its JSON-decode step succeeds by construction
    on values produced by `json.dumps`).  The text of pydantic's
    exception messages is not part of the source and is abstracted by
    fixed strings.
-/

/-- Python strings are modelled as lists of characters. -/
abbrev Str := List Char

/-- Python's `str.strip()` whitespace set (ASCII part): space, tab,
newline, carriage return, vertical tab, form feed.  This is also the
character set of the regex class `\s` on ASCII input. -/
def isPySpace (c : Char) : Bool :=
  c = ' ' || c = '\t' || c = '\n' || c = '\r' || c = '\x0b' || c = '\x0c'

/-- Regex word character `\w` on ASCII input: letters, digits, underscore. -/
def isWordChar (c : Char) : Bool :=
  c.isAlpha || c.isDigit || c = '_'

/-- Python `str.lower()` on ASCII input. -/
def lowerS (s : Str) : Str := s.map Char.toLower

/-- Left trim by a predicate (helper for `pyStrip`). -/
def trimLeft (s : Str) : Str := s.dropWhile isPySpace

/-- Right trim by a predicate (helper for `pyStrip`). -/
def trimRight (s : Str) : Str := (s.reverse.dropWhile isPySpace).reverse

/-- Python `str.strip()`. -/
def pyStrip (s : Str) : Str := trimRight (trimLeft s)

/-- Python `str.split()` with no argument: split on whitespace runs,
dropping empty pieces.  (Fuel-driven recursion; the fuel is always set to
the length of the string plus one, which bounds the number of words.) -/
def pySplitWsAux : Nat → Str → List Str
  | 0, _ => []
  | fuel + 1, s =>
    let s' := s.dropWhile isPySpace
    match s' with
    | [] => []
    | _ :: _ =>
      (s'.takeWhile (fun c => !isPySpace c)) ::
        pySplitWsAux fuel (s'.dropWhile (fun c => !isPySpace c))

/-- Python `str.split()` with no argument. -/
def pySplitWs (s : Str) : List Str := pySplitWsAux (s.length + 1) s

/-- Python `sep.join(l)` for a list of strings. -/
def joinSep (sep : Str) : List Str → Str
  | [] => []
  | [x] => x
  | x :: y :: rest => x ++ sep ++ joinSep sep (y :: rest)

/-- Python `a.split('\n')` (keeps empty pieces). -/
def splitNl : Str → List Str
  | [] => [[]]
  | c :: rest =>
    if c = '\n' then [] :: splitNl rest
    else
      match splitNl rest with
      | [] => [[c]]
      | piece :: more => (c :: piece) :: more

/-- Python substring containment `needle in hay` (contiguous substring). -/
def strIn (needle : Str) : Str → Bool
  | [] => needle.isEmpty
  | c :: rest => needle.isPrefixOf (c :: rest) || strIn needle rest

/-- Lexicographic (code-point) comparison of Python strings, as used by
Python's `sorted` on `str`. -/
def pyLexLt : Str → Str → Bool
  | [], [] => false
  | [], _ :: _ => true
  | _ :: _, [] => false
  | a :: as, b :: bs => if a = b then pyLexLt as bs else decide (a < b)

/-- Insert into a sorted list (helper for `pySorted`). -/
def sortedInsert (x : Str) : List Str → List Str
  | [] => [x]
  | y :: rest => if pyLexLt x y then x :: y :: rest else y :: sortedInsert x rest

/-- Python `sorted` on a list of strings (insertion sort; the inputs it is
applied to below are duplicate-free, so any comparison sort agrees). -/
def pySorted : List Str → List Str
  | [] => []
  | x :: rest => sortedInsert x (pySorted rest)

/-- Deduplication preserving first occurrences (models building a Python
`set` whose contents are then sorted: the sorted result only depends on
the underlying set of elements). -/
def dedup : List Str → List Str
  | [] => []
  | x :: rest => if x ∈ rest then dedup rest else x :: dedup rest

/-- Case-insensitive literal prefix test: `pat` is given lowercase, the
subject keeps its original case (models `re.IGNORECASE` literal runs). -/
def ciIsPrefix : Str → Str → Bool
  | [], _ => true
  | _ :: _, [] => false
  | p :: ps, c :: cs => p = c.toLower && ciIsPrefix ps cs

/-- Word-boundary test `\b` between an optional previous character and an
optional next character: holds iff exactly one side is a word character. -/
def bdry (a b : Option Char) : Bool :=
  (match a with | some c => isWordChar c | none => false) !=
  (match b with | some c => isWordChar c | none => false)

/-- A compiled word-boundary alternation pattern
`\b(alt₁|alt₂|…)\b` (or, when `wsTrail` is set, `\b(alt₁|…)\s+`):
the alternatives are lowercase literals listed in the regex engine's
backtracking preference order (optional pieces such as `,?` or `s?` are
expanded greedily-first). -/
structure WordPat where
  alts : List Str
  wsTrail : Bool := false

/-- Try to match a `WordPat` at the current position.  `prev` is the
previous character of the original subject (for the leading `\b`).
Returns the consumed span (in original case) and the rest. -/
def altMatchAt (wsTrail : Bool) (prev : Option Char) (cs : Str) (alt : Str) :
    Option (Str × Str) :=
  if ciIsPrefix alt cs && bdry prev alt.head? && !alt.isEmpty then
    let consumed := cs.take alt.length
    let rest := cs.drop alt.length
    if wsTrail then
      let run := rest.takeWhile isPySpace
      if run.isEmpty then none
      else some (consumed ++ run, rest.dropWhile isPySpace)
    else
      if bdry consumed.getLast? rest.head? then some (consumed, rest) else none
  else none

/-- First alternative of the pattern that matches at this position (the
`re` engine tries alternatives left to right). -/
def wpMatchAt (p : WordPat) (prev : Option Char) (cs : Str) : Option (Str × Str) :=
  p.alts.firstM (altMatchAt p.wsTrail prev cs)

/-- Generic matcher signature: previous original character, remaining
input; on success, the consumed span and the remaining input.  All
matchers used below consume at least one character on success. -/
abbrev Matcher := Option Char → Str → Option (Str × Str)

/-- `re.sub(pattern, repl, s)` harness: scan left to right over the
original string, replace non-overlapping matches, resume after each
matched span (`prev` tracks the original character before the scan
position, for `\b`). -/
def reSubAux (m : Matcher) (repl : Str) : Nat → Option Char → Str → Str
  | 0, _, cs => cs
  | _ + 1, _, [] => []
  | fuel + 1, prev, c :: rest =>
    match m prev (c :: rest) with
    | some (span, after) => repl ++ reSubAux m repl fuel span.getLast? after
    | none => c :: reSubAux m repl fuel (some c) rest

/-- `re.sub` with a constant replacement string. -/
def reSub (m : Matcher) (repl : Str) (s : Str) : Str :=
  reSubAux m repl (s.length + 1) none s

/-- `re.findall` harness (patterns below either have no group or one
group spanning the whole match, so `findall` yields the matched spans). -/
def reFindallAux (m : Matcher) : Nat → Option Char → Str → List Str
  | 0, _, _ => []
  | _ + 1, _, [] => []
  | fuel + 1, prev, c :: rest =>
    match m prev (c :: rest) with
    | some (span, after) => span :: reFindallAux m fuel span.getLast? after
    | none => reFindallAux m fuel (some c) rest

/-- `re.findall`. -/
def reFindall (m : Matcher) (s : Str) : List Str :=
  reFindallAux m (s.length + 1) none s

/-- `re.search(...) is not None`. -/
def reSearchAux (m : Matcher) : Nat → Option Char → Str → Bool
  | 0, _, _ => false
  | _ + 1, _, [] => false
  | fuel + 1, prev, c :: rest =>
    match m prev (c :: rest) with
    | some _ => true
    | none => reSearchAux m fuel (some c) rest

/-- `re.search(...) is not None`. -/
def reSearch (m : Matcher) (s : Str) : Bool :=
  reSearchAux m (s.length + 1) none s

/-- Boolean search for a word-boundary alternation pattern. -/
def wordSearch (alts : List Str) (s : Str) : Bool :=
  reSearch (wpMatchAt ⟨alts, false⟩) s

/-- Matcher for `\b(?:p₁|p₂)\w+\b`: boundary, one of the lowercase
prefixes, then at least one further word character (the greedy `\w+`
swallows the whole word, after which the trailing `\b` holds). -/
def prefixWordMatchAt (prefixes : List Str) : Matcher := fun prev cs =>
  prefixes.firstM fun p =>
    if ciIsPrefix p cs && bdry prev cs.head? then
      let rest := cs.drop p.length
      let run := rest.takeWhile isWordChar
      if run.isEmpty then none
      else some (cs.take p.length ++ run, rest.dropWhile isWordChar)
    else none

/-- Boolean search for `\b(?:p₁|p₂)\w+\b`. -/
def prefixWordSearch (prefixes : List Str) (s : Str) : Bool :=
  reSearch (prefixWordMatchAt prefixes) s

/-- Shorthand: a Lean string literal as a Python string value. -/
def sl (s : String) : Str := s.toList

/-!  RuleBasedSimplifier (src/ml/rule_based_simplifier.py).  -/

set_option maxHeartbeats 1000000

/-- `RuleBasedSimplifier.LEXICAL_SUBSTITUTIONS`: the ordered table of
(pattern, replacement) pairs, in source (= dict insertion) order.  Each
regex `\b(...)\b` is compiled to its alternative list; optional pieces
(`,?`) are expanded in the engine's greedy preference order. -/
def LEXICAL_SUBSTITUTIONS : List (WordPat × Str) := [
  (⟨[sl "null and void", sl "void and of no effect"], false⟩, sl "void"),
  (⟨[sl "cease and desist"], false⟩, sl "stop"),
  (⟨[sl "give and grant"], false⟩, sl "give"),
  (⟨[sl "final and conclusive"], false⟩, sl "final"),
  (⟨[sl "force and effect"], false⟩, sl "effect"),
  (⟨[sl "terms and conditions"], false⟩, sl "terms"),
  (⟨[sl "by and between"], false⟩, sl "between"),
  (⟨[sl "made and entered into"], false⟩, sl "entered"),
  (⟨[sl "due and payable"], false⟩, sl "due"),
  (⟨[sl "sole and exclusive"], false⟩, sl "sole"),
  (⟨[sl "right, title, and interest", sl "right, title and interest"], false⟩,
    sl "rights"),
  (⟨[sl "authorize and empower"], false⟩, sl "authorize"),
  (⟨[sl "false and bogus"], false⟩, sl "false"),
  (⟨[sl "fabricated, concocted, and without any basis",
     sl "fabricated, concocted and without any basis",
     sl "fabricated concocted, and without any basis",
     sl "fabricated concocted and without any basis"], false⟩, sl "fabricated"),
  (⟨[sl "fabricated and concocted"], false⟩, sl "fabricated"),
  (⟨[sl "ready and willing"], false⟩, sl "willing"),
  (⟨[sl "hereby"], false⟩, []),
  (⟨[sl "herein"], false⟩, sl "in this document"),
  (⟨[sl "hereinafter"], false⟩, sl "later in this document"),
  (⟨[sl "hereof"], false⟩, sl "of this"),
  (⟨[sl "heretofore"], false⟩, sl "previously"),
  (⟨[sl "hereunder"], false⟩, sl "under this agreement"),
  (⟨[sl "herewith"], false⟩, sl "with this"),
  (⟨[sl "therein"], false⟩, sl "in that"),
  (⟨[sl "thereof"], false⟩, sl "of that"),
  (⟨[sl "thereunder"], false⟩, sl "under that"),
  (⟨[sl "wherein"], false⟩, sl "where"),
  (⟨[sl "whereby"], false⟩, sl "by which"),
  (⟨[sl "whereas"], false⟩, sl "since"),
  (⟨[sl "aforesaid"], false⟩, sl "mentioned above"),
  (⟨[sl "forthwith"], false⟩, sl "immediately"),
  (⟨[sl "therefor"], false⟩, sl "for that"),
  (⟨[sl "commence"], false⟩, sl "start"),
  (⟨[sl "terminate"], false⟩, sl "end"),
  (⟨[sl "constitute"], false⟩, sl "is"),
  (⟨[sl "provide that"], false⟩, sl "if"),
  (⟨[sl "in the event that"], false⟩, sl "if"),
  (⟨[sl "in the event of"], false⟩, sl "if"),
  (⟨[sl "provided that"], false⟩, sl "except"),
  (⟨[sl "provided, however,", sl "provided, however",
     sl "provided however,", sl "provided however"], false⟩, sl "except"),
  (⟨[sl "subject to"], false⟩, sl "depending on"),
  (⟨[sl "pursuant to"], false⟩, sl "under"),
  (⟨[sl "in accordance with"], false⟩, sl "following"),
  (⟨[sl "with respect to"], false⟩, sl "about"),
  (⟨[sl "in connection with"], false⟩, sl "relating to"),
  (⟨[sl "prior to"], false⟩, sl "before"),
  (⟨[sl "subsequent to"], false⟩, sl "after"),
  (⟨[sl "shall have no obligation"], false⟩, sl "does not need"),
  (⟨[sl "shall not"], false⟩, sl "must not"),
  (⟨[sl "shall"], false⟩, sl "must"),
  (⟨[sl "may not"], false⟩, sl "cannot"),
  (⟨[sl "indemnification"], false⟩, sl "compensation"),
  (⟨[sl "indemnify"], false⟩, sl "compensate"),
  (⟨[sl "remuneration"], false⟩, sl "payment"),
  (⟨[sl "obligation"], false⟩, sl "duty"),
  (⟨[sl "liability"], false⟩, sl "responsibility"),
  (⟨[sl "liabilities"], false⟩, sl "responsibilities"),
  (⟨[sl "jurisdiction"], false⟩, sl "authority"),
  (⟨[sl "consideration"], false⟩, sl "payment"),
  (⟨[sl "covenants and agrees"], false⟩, sl "agrees"),
  (⟨[sl "during such time as"], false⟩, sl "while"),
  (⟨[sl "at such time as"], false⟩, sl "when"),
  (⟨[sl "for the reason that"], false⟩, sl "because"),
  (⟨[sl "for the purpose of"], false⟩, sl "for"),
  (⟨[sl "in order to"], false⟩, sl "to"),
  (⟨[sl "by means of"], false⟩, sl "by"),
  (⟨[sl "by virtue of"], false⟩, sl "because of"),
  (⟨[sl "notwithstanding the fact that"], false⟩, sl "although"),
  (⟨[sl "to the extent that"], false⟩, sl "if"),
  (⟨[sl "arising out of or in connection with"], false⟩, sl "arising from")]

/-- `RuleBasedSimplifier.REMOVE_PHRASES` (replacement is the empty
string); `\bvery\s+`-style entries carry the trailing `\s+`. -/
def REMOVE_PHRASES : List WordPat := [
  ⟨[sl "very"], true⟩,
  ⟨[sl "quite"], true⟩,
  ⟨[sl "somewhat"], true⟩,
  ⟨[sl "at all"], false⟩,
  ⟨[sl "in any manner"], false⟩,
  ⟨[sl "of any kind"], false⟩,
  ⟨[sl "whatsoever"], false⟩,
  ⟨[sl "without limitation"], false⟩,
  ⟨[sl "including without limitation"], false⟩,
  ⟨[sl "including, without limitation,", sl "including, without limitation",
    sl "including without limitation,", sl "including without limitation"], false⟩,
  ⟨[sl "any and all"], false⟩]

/-- `RuleBasedSimplifier._apply_lexical_substitutions`: the substitutions
are applied sequentially, each on the result of the previous one. -/
def applyLexicalSubstitutions (text : Str) : Str :=
  LEXICAL_SUBSTITUTIONS.foldl (fun acc pr => reSub (wpMatchAt pr.1) pr.2 acc) text

/-- `RuleBasedSimplifier._remove_redundant_phrases`. -/
def removeRedundantPhrases (text : Str) : Str :=
  REMOVE_PHRASES.foldl (fun acc p => reSub (wpMatchAt p) [] acc) text

/-- Step 1 of `_normalize_whitespace`: `re.sub(r' {2,}', ' ', text)` —
collapse runs of two or more spaces (only the space character). -/
def collapseSpacesAux : Nat → Str → Str
  | 0, cs => cs
  | _ + 1, [] => []
  | fuel + 1, c :: rest =>
    if c = ' ' && rest.head?.elim false (· = ' ') then
      ' ' :: collapseSpacesAux fuel (rest.dropWhile (· = ' '))
    else c :: collapseSpacesAux fuel rest

/-- `re.sub(r' {2,}', ' ', text)`. -/
def collapseSpaces (s : Str) : Str := collapseSpacesAux (s.length + 1) s

/-- The punctuation class `[.,;:!?]` of `_normalize_whitespace`. -/
def isNormPunct (c : Char) : Bool :=
  c = '.' || c = ',' || c = ';' || c = ':' || c = '!' || c = '?'

/-- Step 2 of `_normalize_whitespace`:
`re.sub(r'\s+([.,;:!?])', r'\1', text)` — delete any whitespace run that
immediately precedes punctuation (the greedy `\s+` is maximal because a
match must end at a non-whitespace punctuation character). -/
def rmSpaceBeforePunct (fuel : Nat) (s : Str) : Str :=
  match fuel, s with
  | 0, cs => cs
  | _ + 1, [] => []
  | fuel + 1, c :: rest =>
    if isPySpace c then
      let run := (c :: rest).takeWhile isPySpace
      let after := (c :: rest).dropWhile isPySpace
      match after with
      | p :: more =>
        if isNormPunct p then p :: rmSpaceBeforePunct fuel more
        else run ++ rmSpaceBeforePunct fuel after
      | [] => run
    else c :: rmSpaceBeforePunct fuel rest

/-- Step 4 of `_normalize_whitespace`: `re.sub(r'\n{3,}', '\n\n', ...)`. -/
def collapseNewlinesAux : Nat → Str → Str
  | 0, cs => cs
  | _ + 1, [] => []
  | fuel + 1, c :: rest =>
    if c = '\n' && (rest.take 2 = ['\n', '\n']) then
      '\n' :: '\n' :: collapseNewlinesAux fuel (rest.dropWhile (· = '\n'))
    else c :: collapseNewlinesAux fuel rest

/-- `re.sub(r'\n{3,}', '\n\n', text)`. -/
def collapseNewlines (s : Str) : Str := collapseNewlinesAux (s.length + 1) s

/-- `RuleBasedSimplifier._normalize_whitespace`: collapse multiple
spaces, remove whitespace before punctuation, strip every line, collapse
three-or-more newlines, and strip the result. -/
def normalizeWhitespace (text : Str) : Str :=
  let t1 := collapseSpaces text
  let t2 := rmSpaceBeforePunct (t1.length + 1) t1
  let t3 := joinSep (sl "\n") ((splitNl t2).map pyStrip)
  let t4 := collapseNewlines t3
  pyStrip t4

/-- Split pattern `([.!?]\s+)` of `_split_long_sentences`, keeping the
captured delimiters, as `re.split` does with a capturing group. -/
def punctDelimSplit (fuel : Nat) (acc : Str) (s : Str) : List Str :=
  match fuel, s with
  | 0, cs => [acc.reverse ++ cs]
  | _ + 1, [] => [acc.reverse]
  | fuel + 1, c :: rest =>
    if (c = '.' || c = '!' || c = '?') && (rest.head?.elim false isPySpace) then
      let run := rest.takeWhile isPySpace
      let after := rest.dropWhile isPySpace
      acc.reverse :: (c :: run) :: punctDelimSplit fuel [] after
    else punctDelimSplit fuel (c :: acc) rest

/-- The natural-break patterns of `_split_at_natural_breaks`: each is
`,\s+ALT\s+` (case-insensitive) paired with its replacement; for the
first pattern the replacement depends on the matched conjunction group. -/
def NATURAL_BREAKS : List (List (Str × Str)) := [
  [(sl "and", sl ". And "), (sl "or", sl ". Or ")],
  [(sl "but", sl ". But ")],
  [(sl "which", sl ". This ")],
  [(sl "provided that", sl ". However, ")],
  [(sl "provided, however,", sl ". However, "),
   (sl "provided, however", sl ". However, "),
   (sl "provided however,", sl ". However, "),
   (sl "provided however", sl ". However, ")],
  [(sl "except", sl ". Except ")]]

/-- Try to match one natural-break pattern `,\s+ALT\s+` at a position;
returns the consumed length and the replacement of the matched
alternative. -/
def nbMatchAt (alts : List (Str × Str)) (cs : Str) : Option (Nat × Str) :=
  match cs with
  | ',' :: r0 =>
    let ws1 := r0.takeWhile isPySpace
    let r1 := r0.dropWhile isPySpace
    if ws1.isEmpty then none
    else
      alts.firstM fun ar =>
        if ciIsPrefix ar.1 r1 then
          let r2 := r1.drop ar.1.length
          let ws2 := r2.takeWhile isPySpace
          if ws2.isEmpty then none
          else some (1 + ws1.length + ar.1.length + ws2.length, ar.2)
        else none
  | _ => none

/-- `re.sub(pattern, repl, sentence, count=1)` for a natural-break
pattern: replace only the first (leftmost) match. -/
def nbSubFirst (alts : List (Str × Str)) : Nat → Str → Option Str
  | 0, _ => none
  | _ + 1, [] => none
  | fuel + 1, c :: rest =>
    match nbMatchAt alts (c :: rest) with
    | some (n, repl) => some (repl ++ (c :: rest).drop n)
    | none => (nbSubFirst alts fuel rest).map (c :: ·)

/-- `RuleBasedSimplifier._split_at_natural_breaks`: the first pattern in
the priority list that matches is applied once; later patterns are not
tried (at most one split per sentence). -/
def splitAtNaturalBreaks (sentence : Str) : Str :=
  match NATURAL_BREAKS.firstM (fun alts => nbSubFirst alts (sentence.length + 1) sentence) with
  | some result => result
  | none => sentence

/-- `MAX_SENTENCE_LENGTH_WORDS`. -/
def MAX_SENTENCE_LENGTH_WORDS : Nat := 35

/-- The sentence/delimiter pairing loop of `_split_long_sentences`. -/
def longSentenceLoop : List Str → List Str
  | [] => []
  | [sent] =>
    if MAX_SENTENCE_LENGTH_WORDS < (pySplitWs sent).length
    then [splitAtNaturalBreaks sent] else [sent]
  | sent :: delim :: rest =>
    let s := if MAX_SENTENCE_LENGTH_WORDS < (pySplitWs sent).length
             then splitAtNaturalBreaks sent else sent
    if delim.isEmpty then s :: longSentenceLoop rest
    else s :: delim :: longSentenceLoop rest

/-- `RuleBasedSimplifier._split_long_sentences`. -/
def splitLongSentences (text : Str) : Str :=
  (longSentenceLoop (punctDelimSplit (text.length + 1) [] text)).flatten

/-- `RuleBasedSimplifier.simplify(text, preserve_structure, aggressive)`. -/
def rbSimplify (text : Str) (preserveStructure : Bool := true)
    (aggressive : Bool := false) : Str :=
  if text.isEmpty || (pyStrip text).isEmpty then text
  else
    let s := pyStrip text
    let s := applyLexicalSubstitutions s
    let s := removeRedundantPhrases s
    let s := if aggressive || !preserveStructure then splitLongSentences s else s
    normalizeWhitespace s

/-- `RuleBasedSimplifier.simplify(text, preserve_structure=False)` as used
for the extracted explanation fields. -/
def rbSimplifyNP (text : Str) : Str := rbSimplify text false false

/-!  ClauseExtractor (src/ml/clause_extractor.py).  -/

/-- Core of the numbered-section marker regex
`(?:^|\n)\s*(\d+\.)\s+` after the `(?:^|\n)` prefix has been resolved:
`\s*` (maximal: it must be followed by a digit), the captured `\d+.`
(maximal digits followed by the literal dot), and `\s+` (non-empty,
maximal).  Returns the captured group, the last consumed whitespace
character (to decide whether the next scan position is at a line start)
and the rest. -/
def markerCore (cs : Str) : Option (Str × Char × Str) :=
  let r1 := cs.dropWhile isPySpace
  let ds := r1.takeWhile Char.isDigit
  let r2 := r1.dropWhile Char.isDigit
  if ds.isEmpty then none
  else
    match r2 with
    | '.' :: r3 =>
      let ws2 := r3.takeWhile isPySpace
      let r4 := r3.dropWhile isPySpace
      if ws2.isEmpty then none
      else some (ds ++ ['.'], ws2.getLastD ' ', r4)
    | _ => none

/-- Try the full marker pattern at a position: the `(?:^|\n)` prefix
matches either zero-width at a line start (`re.MULTILINE` `^`) or by
consuming a newline character. -/
def markerMatchAt (atLineStart : Bool) (cs : Str) : Option (Str × Char × Str) :=
  if atLineStart then markerCore cs
  else
    match cs with
    | '\n' :: rest => markerCore rest
    | _ => none

/-- `re.split(r"(?:^|\n)\s*(\d+\.)\s+", text, flags=re.MULTILINE)`:
because the pattern has one capturing group, the result interleaves the
text pieces with the captured markers
(`[piece₀, marker₁, piece₁, marker₂, …, pieceₙ]`). -/
def numSplitAux : Nat → Str → Bool → Str → List Str
  | 0, acc, _, _ => [acc.reverse]
  | fuel + 1, acc, atLS, cs =>
    match markerMatchAt atLS cs with
    | some (cap, lastWs, rest) =>
      acc.reverse :: cap :: numSplitAux fuel [] (lastWs = '\n') rest
    | none =>
      match cs with
      | [] => [acc.reverse]
      | c :: rest => numSplitAux fuel (c :: acc) (c = '\n') rest

/-- The interleaved `re.split` list (the Python variable `numbered`). -/
def numberedRawSplit (text : Str) : List Str :=
  numSplitAux (text.length + 1) [] true text

/-- Count of marker matches of the same scan (for stating the acceptance
condition of the numbered strategy in terms of marker occurrences). -/
def numCountAux : Nat → Bool → Str → Nat
  | 0, _, _ => 0
  | fuel + 1, atLS, cs =>
    match markerMatchAt atLS cs with
    | some (_, lastWs, rest) => 1 + numCountAux fuel (lastWs = '\n') rest
    | none =>
      match cs with
      | [] => 0
      | c :: rest => numCountAux fuel (c = '\n') rest

/-- Number of numbered-section markers found in the text. -/
def markerCount (text : Str) : Nat := numCountAux (text.length + 1) true text

/-- `re.match(r"^\d+\.$", part.strip())`: the stripped part is one or
more digits followed by a dot. -/
def isNumberMarker (part : Str) : Bool :=
  let q := pyStrip part
  let ds := q.takeWhile Char.isDigit
  !ds.isEmpty && q.drop ds.length = ['.']

/-- The re-joining loop of the numbered strategy in
`ClauseExtractor._split_text`: marker parts start a new `"<number>. "`
buffer (flushing the previous one), other parts extend the buffer. -/
def numberedLoop : List Str → Str → List Str
  | [], current => if current.isEmpty then [] else [current]
  | part :: rest, current =>
    if isNumberMarker part then
      if current.isEmpty then numberedLoop rest (part ++ [' '])
      else current :: numberedLoop rest (part ++ [' '])
    else numberedLoop rest (current ++ part)

/-- The segments produced by the numbered-section strategy. -/
def numberedSegments (text : Str) : List Str :=
  numberedLoop (numberedRawSplit text) []

/-- `re.split(r"(?<=[.!?])\s+(?=[A-Z])", text)`: split at each maximal
whitespace run that is preceded by `.`/`!`/`?` and followed by an ASCII
uppercase letter. -/
def sentSplitAux : Nat → Str → Option Char → Str → List Str
  | 0, acc, _, cs => [acc.reverse ++ cs]
  | _ + 1, acc, _, [] => [acc.reverse]
  | fuel + 1, acc, prev, c :: rest =>
    if isPySpace c && (prev.elim false fun p => p = '.' || p = '!' || p = '?') then
      let run := (c :: rest).takeWhile isPySpace
      let after := (c :: rest).dropWhile isPySpace
      match after with
      | u :: _ =>
        if 'A' ≤ u && u ≤ 'Z' then
          acc.reverse :: sentSplitAux fuel [] (some (run.getLastD c)) after
        else sentSplitAux fuel (c :: acc) (some c) rest
      | [] => sentSplitAux fuel (c :: acc) (some c) rest
    else sentSplitAux fuel (c :: acc) (some c) rest

/-- Sentence split of `ClauseExtractor._split_text` (second strategy). -/
def sentenceSplit (text : Str) : List Str :=
  sentSplitAux (text.length + 1) [] none text

/-- A sentence "ends a clause" when it contains one of the strong
boundary markers (`re.search` of a literal, case-insensitive, so plain
substring containment on the lowercased sentence). -/
def hasStrongBoundary (sent : Str) : Bool :=
  strIn (sl "provided that") (lowerS sent) || strIn (sl "except that") (lowerS sent)

/-- The sentence-accumulation loop of `ClauseExtractor._split_text`. -/
def sentenceAccumLoop : List Str → Str → List Str → List Str
  | [], current, segs =>
    if (pyStrip current).isEmpty then segs else segs ++ [pyStrip current]
  | sent :: rest, current, segs =>
    let cur := current ++ sent ++ [' ']
    if hasStrongBoundary sent then sentenceAccumLoop rest [] (segs ++ [pyStrip cur])
    else sentenceAccumLoop rest cur segs

/-- The segments produced by the sentence-accumulation strategy. -/
def sentenceSegments (text : Str) : List Str :=
  sentenceAccumLoop (sentenceSplit text) [] []

/-- `ClauseExtractor._split_text`: the numbered strategy is accepted when
the raw `re.split` list has more than 3 entries; otherwise the sentence
strategy runs, and if it produces no segments the whole text becomes a
single segment. -/
def splitText (text : Str) : List Str :=
  let numbered := numberedRawSplit text
  if 3 < numbered.length then numberedLoop numbered []
  else
    let segs := sentenceSegments text
    if segs.isEmpty then [text] else segs

/-- `ClauseExtractor.TYPE_PATTERNS`, with every regex compiled to a
boolean matcher on the (already lowercased) clause text.  Optional and
alternation pieces are expanded literally; in particular
`\b(?:damage|loss)(?:es)?\b` matches exactly the words
`damagees`, `damage`, `losses`, `loss` (the `(?:es)?` suffix applies to
both alternatives, so the word `damages` does NOT match this pattern). -/
def TYPE_PATTERNS : List (Str × List (Str → Bool)) := [
  (sl "payment_obligation", [
    wordSearch [sl "payment", sl "payable", sl "pays", sl "pay"],
    wordSearch [sl "invoice", sl "fee", sl "charge", sl "price", sl "cost",
      sl "amount"],
    prefixWordSearch [sl "compensat", sl "remunerat"]]),
  (sl "liability", [
    wordSearch [sl "liable", sl "liability"],
    wordSearch [sl "indemnify", sl "indemnification"],
    wordSearch [sl "damagees", sl "damage", sl "losses", sl "loss"],
    wordSearch [sl "liable for", sl "responsible for"]]),
  (sl "termination", [
    wordSearch [sl "terminate", sl "termination"],
    wordSearch [sl "cancel", sl "cancellation"],
    wordSearch [sl "expire", sl "expiration"],
    wordSearch [sl "end this agreement", sl "end this contract"]]),
  (sl "confidentiality", [
    wordSearch [sl "confidentiality", sl "confidential"],
    wordSearch [sl "non-disclosure", sl "nda"],
    wordSearch [sl "secret", sl "proprietary"]]),
  (sl "warranty", [
    wordSearch [sl "warranty", sl "warranties"],
    wordSearch [sl "guarantee"],
    wordSearch [sl "represent", sl "representation"]]),
  (sl "condition", [
    wordSearch [sl "if"],
    wordSearch [sl "unless"],
    wordSearch [sl "subject to"],
    wordSearch [sl "contingent upon"]]),
  (sl "definition", [
    wordSearch [sl "means"],
    wordSearch [sl "defined as"],
    wordSearch [sl "refers to"],
    wordSearch [sl "for purposes of"]]),
  (sl "general_obligation", [
    wordSearch [sl "shall"],
    wordSearch [sl "must"],
    wordSearch [sl "required to"],
    wordSearch [sl "obligated", sl "obligation"]])]

/-- Per-category pattern-hit counts on the lowercased text, in the fixed
declaration order of the category table. -/
def typeScorePairs (text : Str) : List (Str × Nat) :=
  let tl := lowerS text
  TYPE_PATTERNS.map fun p => (p.1, p.2.countP fun f => f tl)

/-- Python's `max(iterable, key=f)`: the first element attaining the
maximal key (the fold replaces the current best only on a strictly
greater key). -/
def pyMaxBy (f : α → Nat) : List α → Option α
  | [] => none
  | x :: rest => some (rest.foldl (fun best y => if f best < f y then y else best) x)

/-- `ClauseExtractor._infer_type`: build the (insertion-ordered) dict of
strictly positive scores and take `max(scores, key=scores.get)`;
no positive score means type `general`. -/
def inferType (text : Str) : Str :=
  let scores := (typeScorePairs text).filter fun p => 0 < p.2
  match pyMaxBy Prod.snd scores with
  | some p => p.1
  | none => sl "general"

/-- One extracted clause (`{"id": …, "original_text": …, "type": …}`). -/
structure RawClause where
  id : Str
  original_text : Str
  type : Str
deriving DecidableEq, Repr

/-- The enumeration loop of `ClauseExtractor.extract_clauses`
(`enumerate(segments, start=1)`; empty segments keep their index but are
skipped). -/
def clausesLoop : List Str → Nat → List RawClause
  | [], _ => []
  | seg :: rest, idx =>
    if (pyStrip seg).isEmpty then clausesLoop rest (idx + 1)
    else
      { id := sl "clause_" ++ sl (toString idx),
        original_text := pyStrip seg,
        type := inferType seg } :: clausesLoop rest (idx + 1)

/-- `ClauseExtractor.extract_clauses`. -/
def extractClauses (text : Str) : List RawClause :=
  if (pyStrip text).isEmpty then []
  else clausesLoop (splitText (pyStrip text)) 1

/-!  EntityExtractor (src/ml/entity_extractor.py).  -/

/-- `EntityExtractor.PARTY_KEYWORDS` (fixed ordered list). -/
def PARTY_KEYWORDS : List Str := [
  sl "buyer", sl "seller", sl "purchaser", sl "vendor", sl "lessor",
  sl "lessee", sl "customer", sl "client", sl "contractor",
  sl "subcontractor", sl "employer", sl "employee", sl "licensor",
  sl "licensee", sl "borrower", sl "lender", sl "party", sl "parties",
  sl "provider", sl "recipient"]

/-- Matcher for the party pattern `\b(?:the\s+)?KEYWORD\b` (searched on
the lowercased text): either `the`, a whitespace run and the keyword, or
the keyword alone; both alternatives carry the boundary checks. -/
def partyMatchAt (kw : Str) : Matcher := fun prev cs =>
  (do
    guard (ciIsPrefix (sl "the") cs && bdry prev cs.head?)
    let r1 := cs.drop 3
    let ws := r1.takeWhile isPySpace
    guard (!ws.isEmpty)
    let r2 := r1.dropWhile isPySpace
    guard (ciIsPrefix kw r2)
    let r3 := r2.drop kw.length
    guard (bdry (r2.take kw.length).getLast? r3.head?)
    pure (cs.take (3 + ws.length + kw.length), r3)) <|>
  altMatchAt false prev cs kw

/-- `EntityExtractor._extract_parties`: keywords found anywhere in the
text (with the optional `the` prefix), reported in keyword-list order. -/
def entityParties (text : Str) : List Str :=
  PARTY_KEYWORDS.filter fun kw => reSearch (partyMatchAt kw) (lowerS text)

/-- Matcher for `\$\s?\d[\d,]*(?:\.\d{2})?`. -/
def currencyDollarMatchAt : Matcher := fun _ cs =>
  match cs with
  | '$' :: r0 =>
    let withWs := if r0.head?.elim false isPySpace then 1 else 0
    let r1 := r0.drop withWs
    match r1 with
    | d :: r2 =>
      if d.isDigit then
        let run := r2.takeWhile fun c => c.isDigit || c = ','
        let r3 := r2.dropWhile fun c => c.isDigit || c = ','
        let cents : Nat :=
          match r3 with
          | '.' :: a :: b :: _ => if a.isDigit && b.isDigit then 3 else 0
          | _ => 0
        let total := 1 + withWs + 1 + run.length + cents
        some (cs.take total, cs.drop total)
      else none
    | [] => none
  | _ => none

/-- Currency codes `(?:USD|EUR|GBP|INR)` (case-insensitive). -/
def CURRENCY_CODES : List Str := [sl "usd", sl "eur", sl "gbp", sl "inr"]

/-- Match a number `\d[\d,]*(?:\.\d{2})?` at a position, returning the
consumed length. -/
def numTokenLen (cs : Str) : Option Nat :=
  match cs with
  | d :: r1 =>
    if d.isDigit then
      let run := r1.takeWhile fun c => c.isDigit || c = ','
      let r2 := r1.dropWhile fun c => c.isDigit || c = ','
      let cents : Nat :=
        match r2 with
        | '.' :: a :: b :: _ => if a.isDigit && b.isDigit then 3 else 0
        | _ => 0
      some (1 + run.length + cents)
    else none
  | [] => none

/-- Matcher for `\d[\d,]*(?:\.\d{2})?\s?(?:USD|EUR|GBP|INR)` (the `\s?`
consumes one whitespace character exactly when the code follows it). -/
def currencyNumCodeMatchAt : Matcher := fun _ cs => do
  let n ← numTokenLen cs
  let r := cs.drop n
  let withWs := if r.head?.elim false isPySpace then 1 else 0
  let r1 := r.drop withWs
  let code ← CURRENCY_CODES.firstM fun c => if ciIsPrefix c r1 then some c else none
  let total := n + withWs + code.length
  pure (cs.take total, cs.drop total)

/-- Matcher for `(?:USD|EUR|GBP|INR)\s?\d[\d,]*(?:\.\d{2})?`. -/
def currencyCodeNumMatchAt : Matcher := fun _ cs => do
  let code ← CURRENCY_CODES.firstM fun c => if ciIsPrefix c cs then some c else none
  let r := cs.drop code.length
  let withWs := if r.head?.elim false isPySpace then 1 else 0
  let r1 := r.drop withWs
  let n ← numTokenLen r1
  let total := code.length + withWs + n
  pure (cs.take total, cs.drop total)

/-- `EntityExtractor._extract_amounts`: all matches of the three currency
patterns, in pattern order. -/
def entityAmounts (text : Str) : List Str :=
  reFindall currencyDollarMatchAt text ++
  reFindall currencyNumCodeMatchAt text ++
  reFindall currencyCodeNumMatchAt text

/-- Time units `(?:day|week|month|year)` (case-insensitive). -/
def TIME_UNITS : List Str := [sl "day", sl "week", sl "month", sl "year"]

/-- Parse `\s+(?:day|week|month|year)s?` after the day number, returning
the consumed length. -/
def wsUnitLen (cs : Str) : Option Nat := do
  let ws := cs.takeWhile isPySpace
  guard (!ws.isEmpty)
  let r := cs.dropWhile isPySpace
  let unit ← TIME_UNITS.firstM fun u => if ciIsPrefix u r then some u else none
  let r1 := r.drop unit.length
  let plural := if r1.head?.elim false (fun c => c.toLower = 's') then 1 else 0
  pure (ws.length + unit.length + plural)

/-- Parse `\s+\d+\s+(?:day|week|month|year)s?` after a literal prefix,
returning the consumed length. -/
def wsNumUnitLen (cs : Str) : Option Nat := do
  let ws1 := cs.takeWhile isPySpace
  guard (!ws1.isEmpty)
  let r1 := cs.dropWhile isPySpace
  let ds := r1.takeWhile Char.isDigit
  guard (!ds.isEmpty)
  let n ← wsUnitLen (r1.drop ds.length)
  pure (ws1.length + ds.length + n)

/-- Matcher for `\d+\s+(?:day|week|month|year)s?`. -/
def timeNumUnitMatchAt : Matcher := fun _ cs => do
  let ds := cs.takeWhile Char.isDigit
  guard (!ds.isEmpty)
  let n ← wsUnitLen (cs.drop ds.length)
  let total := ds.length + n
  pure (cs.take total, cs.drop total)

/-- Matcher for `within\s+\d+\s+(?:day|week|month|year)s?` (no `\b`:
the literal may start inside a word). -/
def timeWithinMatchAt : Matcher := fun _ cs => do
  guard (ciIsPrefix (sl "within") cs)
  let n ← wsNumUnitLen (cs.drop 6)
  let total := 6 + n
  pure (cs.take total, cs.drop total)

/-- Matcher for `before\s+\d+\s+(?:day|week|month|year)s?`. -/
def timeBeforeMatchAt : Matcher := fun _ cs => do
  guard (ciIsPrefix (sl "before") cs)
  let n ← wsNumUnitLen (cs.drop 6)
  let total := 6 + n
  pure (cs.take total, cs.drop total)

/-- Parse `,?\s+\d{4}` (the optional comma is taken when present; if its
continuation fails the no-comma branch would put `\s+` on the comma and
fail as well, so no further backtracking is needed). -/
def dateTailLen (cs : Str) : Option Nat := do
  let comma := if cs.head?.elim false (· = ',') then 1 else 0
  let r := cs.drop comma
  let ws := r.takeWhile isPySpace
  guard (!ws.isEmpty)
  let r1 := r.dropWhile isPySpace
  guard ((r1.take 4).length = 4 && (r1.take 4).all Char.isDigit)
  pure (comma + ws.length + 4)

/-- Matcher for `(?:by|on|before)\s+\w+\s+\d{1,2},?\s+\d{4}`:
the day number `\d{1,2}` is greedy, so two digits are tried first and one
digit only if the two-digit continuation fails. -/
def timeDateMatchAt : Matcher := fun _ cs => do
  let kw ← [sl "by", sl "on", sl "before"].firstM fun k =>
    if ciIsPrefix k cs then some k else none
  let r0 := cs.drop kw.length
  let ws1 := r0.takeWhile isPySpace
  guard (!ws1.isEmpty)
  let r1 := r0.dropWhile isPySpace
  let word := r1.takeWhile isWordChar
  guard (!word.isEmpty)
  let r2 := r1.dropWhile isWordChar
  let ws2 := r2.takeWhile isPySpace
  guard (!ws2.isEmpty)
  let r3 := r2.dropWhile isPySpace
  let ds := r3.takeWhile Char.isDigit
  guard (!ds.isEmpty)
  let dayLen ←
    if 2 ≤ ds.length then
      match dateTailLen (r3.drop 2) with
      | some t => some (2 + t)
      | none => (dateTailLen (r3.drop 1)).map (1 + ·)
    else (dateTailLen (r3.drop 1)).map (1 + ·)
  let total := kw.length + ws1.length + word.length + ws2.length + dayLen
  pure (cs.take total, cs.drop total)

/-- `EntityExtractor._extract_deadlines`: all matches of the four time
patterns, in pattern order. -/
def entityDeadlines (text : Str) : List Str :=
  reFindall timeNumUnitMatchAt text ++
  reFindall timeWithinMatchAt text ++
  reFindall timeBeforeMatchAt text ++
  reFindall timeDateMatchAt text

/-- `EntityExtractor.CONDITION_KEYWORDS`. -/
def CONDITION_KEYWORDS : List Str := [
  sl "if", sl "unless", sl "provided that", sl "except that",
  sl "subject to", sl "contingent", sl "conditional", sl "in the event",
  sl "should"]

/-- Matcher for `\b\d+\b` (numerics). -/
def numericMatchAt : Matcher := fun prev cs => do
  let ds := cs.takeWhile Char.isDigit
  guard (!ds.isEmpty)
  guard (bdry prev cs.head?)
  let rest := cs.drop ds.length
  guard (bdry ds.getLast? rest.head?)
  pure (ds, rest)

/-- The entities dictionary produced by
`EntityExtractor.extract_entities` for non-empty input. -/
structure Entities where
  party_1 : Option Str
  party_2 : Option Str
  amount : Option Str
  deadline : Option Str
  conditions : Bool
  numerics : List Str
deriving DecidableEq, Repr

/-- `EntityExtractor.extract_entities`; `none` models the empty dict
`{}` returned for empty input. -/
def extractEntities (clauseText : Str) : Option Entities :=
  if clauseText.isEmpty then none
  else
    let parties := entityParties clauseText
    let amounts := entityAmounts clauseText
    let deadlines := entityDeadlines clauseText
    some {
      party_1 := parties.head?
      party_2 := parties.tail.head?
      amount := amounts.head?
      deadline := deadlines.head?
      conditions := CONDITION_KEYWORDS.any fun kw => strIn kw (lowerS clauseText)
      numerics := (reFindall numericMatchAt clauseText).take 5 }

/-- Python truthiness of `entities.get(key)` for an optional string key
on a possibly-empty entities dict: `None` and `""` are falsy. -/
def optTruthy (o : Option Str) : Bool := o.elim false fun s => !s.isEmpty

/-- `entities.get("party_1")` etc. on a possibly-empty dict. -/
def entAmount (e : Option Entities) : Option Str := e.bind Entities.amount

/-- `entities.get("deadline")`. -/
def entDeadline (e : Option Entities) : Option Str := e.bind Entities.deadline

/-- `entities.get("conditions")` (falsy when the dict is empty). -/
def entConditions (e : Option Entities) : Bool := e.elim false Entities.conditions

/-- `entities.get("numerics")` (falsy when empty). -/
def entNumerics (e : Option Entities) : List Str := e.elim [] Entities.numerics

/-!  RiskAssessor (src/ml/risk_assessor.py).  -/

/-- Matcher-compiled `RiskAssessor.HIGH_RISK_KEYWORDS` (3 points each). -/
def HIGH_RISK_KEYWORDS : List (Str → Bool) := [
  wordSearch [sl "penalty"],
  wordSearch [sl "liability"],
  wordSearch [sl "indemnify", sl "indemnification"],
  wordSearch [sl "breach"],
  wordSearch [sl "terminate", sl "termination"],
  wordSearch [sl "waive"],
  wordSearch [sl "unlimited"],
  wordSearch [sl "damages", sl "damage"],
  wordSearch [sl "forfeiture"],
  wordSearch [sl "default"],
  wordSearch [sl "severable", sl "severance"]]

/-- Matcher for `\bwithin\s+\d+\s+days\b`. -/
def withinDaysSearch (s : Str) : Bool :=
  reSearch (fun prev cs => do
    guard (ciIsPrefix (sl "within") cs && bdry prev cs.head?)
    let r0 := cs.drop 6
    let ws1 := r0.takeWhile isPySpace
    guard (!ws1.isEmpty)
    let r1 := r0.dropWhile isPySpace
    let ds := r1.takeWhile Char.isDigit
    guard (!ds.isEmpty)
    let r2 := r1.dropWhile Char.isDigit
    let ws2 := r2.takeWhile isPySpace
    guard (!ws2.isEmpty)
    let r3 := r2.dropWhile isPySpace
    guard (ciIsPrefix (sl "days") r3)
    let r4 := r3.drop 4
    guard (bdry (r3.take 4).getLast? r4.head?)
    let total := 6 + ws1.length + ds.length + ws2.length + 4
    pure (cs.take total, r4)) s

/-- Matcher-compiled `RiskAssessor.MEDIUM_RISK_KEYWORDS` (2 points). -/
def MEDIUM_RISK_KEYWORDS : List (Str → Bool) := [
  wordSearch [sl "shall"],
  wordSearch [sl "must"],
  wordSearch [sl "obligated", sl "obligation"],
  withinDaysSearch,
  wordSearch [sl "required to"],
  wordSearch [sl "contingent"],
  wordSearch [sl "conditional"],
  wordSearch [sl "provided that"],
  wordSearch [sl "restriction", sl "restricted", sl "restrict"],
  wordSearch [sl "prohibited", sl "prohibit"]]

/-- Matcher-compiled `RiskAssessor.LOW_RISK_KEYWORDS` (−1 point). -/
def LOW_RISK_KEYWORDS : List (Str → Bool) := [
  wordSearch [sl "definition"],
  wordSearch [sl "means"],
  wordSearch [sl "for clarity"],
  wordSearch [sl "as follows"],
  wordSearch [sl "background"],
  wordSearch [sl "recital"],
  wordSearch [sl "administrative"],
  wordSearch [sl "informational"]]

/-- `RiskAssessor.TYPE_RISK_SCORES` with the `.get(clause_type, 0)`
default. -/
def typeRiskScore (clauseType : Str) : Int :=
  if clauseType = sl "liability" then 3
  else if clauseType = sl "termination" then 3
  else if clauseType = sl "payment_obligation" then 2
  else if clauseType = sl "warranty" then 2
  else if clauseType = sl "confidentiality" then 2
  else if clauseType = sl "condition" then 2
  else if clauseType = sl "general_obligation" then 1
  else if clauseType = sl "definition" then 0
  else if clauseType = sl "general" then 1
  else 0

/-- `RiskAssessor.assess_risk`, mirroring the Python control flow: the
empty string short-circuits to `"low"`; otherwise the keyword loops add
3 / add 2 / subtract 1 per matching pattern, the clause-type base score
and the three entity bonuses are added, and the thresholds are applied. -/
def assessRisk (clauseText : Str) (clauseType : Str) (entities : Option Entities) :
    Str :=
  if clauseText.isEmpty then sl "low"
  else
    let tl := lowerS clauseText
    let s1 : Int := HIGH_RISK_KEYWORDS.foldl (fun a f => if f tl then a + 3 else a) 0
    let s2 := MEDIUM_RISK_KEYWORDS.foldl (fun a f => if f tl then a + 2 else a) s1
    let s3 := LOW_RISK_KEYWORDS.foldl (fun a f => if f tl then a - 1 else a) s2
    let s4 := s3 + typeRiskScore clauseType
    let s5 := s4 + (if optTruthy (entAmount entities) then 1 else 0)
    let s6 := s5 + (if optTruthy (entDeadline entities) then 1 else 0)
    let s7 := s6 + (if entConditions entities then 1 else 0)
    if 6 ≤ s7 then sl "high" else if 3 ≤ s7 then sl "medium" else sl "low"

/-!  SimplificationPipeline field extraction heuristics
(src/pipelines/simplification.py).  -/

/-- `findall` of a word-boundary alternation pattern, returning the
matched spans in original case (the capturing group spans the whole
alternation). -/
def wpFindall (p : WordPat) (s : Str) : List Str :=
  reFindall (wpMatchAt p) s

/-- Compound party-name patterns of
`SimplificationPipeline._extract_parties`. -/
def COMPOUND_PARTY_PATTERNS : List WordPat := [
  ⟨[sl "receiving party", sl "disclosing party", sl "indemnifying party",
    sl "indemnified party", sl "licensing party", sl "licensed party"], false⟩,
  ⟨[sl "first party", sl "second party", sl "third party"], false⟩]

/-- Single-word party patterns of `_extract_parties` (`s?` expanded
greedily-first). -/
def SINGLE_PARTY_PATTERNS : List WordPat := [
  ⟨[sl "company", sl "client", sl "vendor", sl "customer", sl "applicant",
    sl "court", sl "licensor", sl "licensee", sl "employer", sl "employee"],
    false⟩,
  ⟨[sl "plaintiff", sl "defendant", sl "petitioner", sl "respondent",
    sl "grantor", sl "grantee"], false⟩,
  ⟨[sl "its officers", sl "its officer", sl "directors", sl "director",
    sl "employees", sl "employee", sl "agents", sl "agent",
    sl "successors", sl "successor", sl "assigns", sl "assign",
    sl "affiliates", sl "affiliate"], false⟩]

/-- `sorted(set(p.strip() for p in found))[:4]` and the `", "` join. -/
def partiesJoin (found : List Str) : Str :=
  joinSep (sl ", ") ((pySorted (dedup (found.map pyStrip))).take 4)

/-- `SimplificationPipeline._extract_parties` (the `simplified` argument
of the Python method is unused by its body and omitted here). -/
def extractPartiesField (original : Str) : Str :=
  let compound := COMPOUND_PARTY_PATTERNS.flatMap fun p => wpFindall p original
  if !compound.isEmpty then partiesJoin compound
  else
    let single := SINGLE_PARTY_PATTERNS.flatMap fun p => wpFindall p original
    if !single.isEmpty then partiesJoin single
    else sl "The parties mentioned in the clause"

/-- Coverage keyword patterns of
`SimplificationPipeline._extract_coverage` (`s?` expanded
greedily-first; note `losses?` is the literal `losse` with an optional
`s`, and similarly for the other pluralised entries). -/
def COVERAGE_KEYWORDS : List WordPat := [
  ⟨[sl "claims", sl "claim", sl "damages", sl "damage", sl "losses",
    sl "losse", sl "liabilities", sl "liabilitie", sl "costs", sl "cost",
    sl "expenses", sl "expense", sl "fees", sl "fee", sl "penalties",
    sl "penaltie"], false⟩,
  ⟨[sl "breach", sl "misconduct", sl "negligence", sl "violation",
    sl "failure", sl "default"], false⟩,
  ⟨[sl "compensation", sl "indemnification", sl "protection",
    sl "defense", sl "reimbursement"], false⟩,
  ⟨[sl "confidential information", sl "confidential",
    sl "proprietary information", sl "trade secrets", sl "trade secret"],
    false⟩,
  ⟨[sl "disclosure", sl "use", sl "dissemination", sl "reproduction",
    sl "distribution"], false⟩,
  ⟨[sl "inventions", sl "invention", sl "patents", sl "patent",
    sl "copyrights", sl "copyright", sl "trademarks", sl "trademark",
    sl "intellectual property"], false⟩,
  ⟨[sl "employment", sl "services", sl "work product", sl "non-compete"],
    false⟩,
  ⟨[sl "obligations", sl "obligation", sl "duties", sl "rights",
    sl "restrictions", sl "restriction", sl "limitations", sl "limitation",
    sl "prohibitions", sl "prohibition"], false⟩]

/-- `SimplificationPipeline._extract_coverage`. -/
def extractCoverageField (original : Str) : Str :=
  let found := COVERAGE_KEYWORDS.flatMap fun p => wpFindall p original
  if !found.isEmpty then
    sl "Covers: " ++ joinSep (sl ", ") ((pySorted (dedup (found.map pyStrip))).take 6)
  else sl "Coverage details in the original clause"

/-- Matcher for the exception patterns of the shape `KW[^.]*(…)*`:
one of the (lowercase) keyword literals, then `[^.]*` (maximal: every
character up to the next dot or the end).  The trailing
`(?:\([a-z]\)[^.]*)*` star group of the source regex can never
participate in a match: the greedy `[^.]*` always extends to a dot or to
the end of input, where `\(` cannot match, so the engine accepts with
zero iterations of the group. -/
def kwToDotMatchAt (alts : List Str) : Matcher := fun _ cs => do
  let kw ← alts.firstM fun k => if ciIsPrefix k cs then some k else none
  let rest := cs.drop kw.length
  let seg := rest.takeWhile (· ≠ '.')
  pure (cs.take (kw.length + seg.length), rest.dropWhile (· ≠ '.'))

/-- Matcher for `may[^.]*discretion[^.]*`:  after `may`, the clause
segment up to the next dot must contain `discretion`; the match then
covers the whole segment (the final greedy `[^.]*` runs to the dot). -/
def mayDiscretionMatchAt : Matcher := fun _ cs => do
  guard (ciIsPrefix (sl "may") cs)
  let rest := cs.drop 3
  let seg := rest.takeWhile (· ≠ '.')
  guard (strIn (sl "discretion") (lowerS seg))
  pure (cs.take (3 + seg.length), rest.dropWhile (· ≠ '.'))

/-- All matches of the five exception patterns of
`SimplificationPipeline._extract_exceptions`, in pattern order. -/
def exceptionMatches (original : Str) : List Str :=
  reFindall (kwToDotMatchAt [sl "except", sl "provided", sl "however",
    sl "unless", sl "but", sl "excluding"]) original ++
  reFindall (kwToDotMatchAt [sl "does not apply"]) original ++
  reFindall (kwToDotMatchAt [sl "no obligation"]) original ++
  reFindall mayDiscretionMatchAt original ++
  reFindall (kwToDotMatchAt [sl "shall not apply"]) original

/-- The candidate list built by `_extract_exceptions`: stripped matches
longer than 25 characters are rule-simplified
(`preserve_structure=False`), and non-empty simplification results are
collected. -/
def exceptionCandidates (original : Str) : List Str :=
  (exceptionMatches original).foldl (fun acc m =>
    let cleaned := pyStrip m
    if 25 < cleaned.length then
      let simplified := rbSimplifyNP cleaned
      if !simplified.isEmpty then acc ++ [simplified] else acc
    else acc) []

/-- Capitalisation `main[0].upper() + main[1:]` (guarded on non-empty as
in the source). -/
def pyCapitalize : Str → Str
  | [] => []
  | c :: rest => c.toUpper :: rest

/-- The fixed placeholder of `_extract_exceptions`. -/
def NO_EXCEPTIONS_PLACEHOLDER : Str := sl "No major exceptions specified"

/-- `SimplificationPipeline._extract_exceptions`: the longest (first on
ties) already-simplified candidate, capitalised; otherwise the fixed
placeholder. -/
def extractExceptionsField (original : Str) : Str :=
  let found := exceptionCandidates original
  if !found.isEmpty then
    match pyMaxBy List.length found with
    | some m => pyCapitalize m
    | none => NO_EXCEPTIONS_PLACEHOLDER
  else NO_EXCEPTIONS_PLACEHOLDER

/-- The explanation record assembled by
`SimplificationPipeline._hybrid_explain_clause`. -/
structure Explanation where
  summary : Str
  who_is_protected : Str
  what_is_covered : Str
  exceptions : Str
deriving DecidableEq, Repr

/-- `_hybrid_explain_clause`: rule-based summary of the original clause,
the three heuristic fields each post-processed with
`preserve_structure=False`, and the `missing_field_*` warnings in the
fixed key order.  (The `get_simplification_stats` call of the source only
feeds a debug log inside a `try/except` and has no effect on the
result.) -/
def hybridExplainClause (clauseText : Str) : Explanation × List Str :=
  let summary := rbSimplify clauseText true false
  let explanation : Explanation := {
    summary := summary
    who_is_protected := rbSimplifyNP (extractPartiesField clauseText)
    what_is_covered := rbSimplifyNP (extractCoverageField clauseText)
    exceptions := rbSimplifyNP (extractExceptionsField clauseText) }
  let warnings :=
    (if (pyStrip explanation.summary).isEmpty
     then [sl "missing_field_summary"] else []) ++
    (if (pyStrip explanation.who_is_protected).isEmpty
     then [sl "missing_field_who_is_protected"] else []) ++
    (if (pyStrip explanation.what_is_covered).isEmpty
     then [sl "missing_field_what_is_covered"] else []) ++
    (if (pyStrip explanation.exceptions).isEmpty
     then [sl "missing_field_exceptions"] else [])
  (explanation, warnings)

/-!  JSON values, the pydantic schema (src/schemas/simplify_output.py)
and the validator (src/validators/simplify_validators.py).  -/

/-- JSON values (the image of `json.dumps`/`json.loads` on the
dictionaries the pipeline builds). -/
inductive JValue where
  | null : JValue
  | jbool : Bool → JValue
  | jstr : Str → JValue
  | jarr : List JValue → JValue
  | jobj : List (Str × JValue) → JValue

/-- Key lookup in a JSON object. -/
def jLookup (fields : List (Str × JValue)) (k : Str) : Option JValue :=
  (fields.find? fun f => f.1 = k).map Prod.snd

/-- Is this JSON value a string? -/
def jIsStr : JValue → Bool
  | .jstr _ => true
  | _ => false

/-- Pydantic validation of one element of `clauses` against the `Clause`
model of src/schemas/simplify_output.py: the required string fields are
`id`, `type`, `original_text`, `simplified_text` and `risk_level`;
`key_entities` defaults to `{}` but must be an object when present;
`warnings` defaults to `[]` but must be a list of strings when present.
Extra keys are ignored (pydantic's default).  -/
def clauseSchemaOK (v : JValue) : Bool :=
  match v with
  | .jobj fs =>
    ([sl "id", sl "type", sl "original_text", sl "simplified_text",
      sl "risk_level"].all fun k =>
        match jLookup fs k with
        | some (.jstr _) => true
        | _ => false) &&
    (match jLookup fs (sl "key_entities") with
     | none => true
     | some (.jobj _) => true
     | some _ => false) &&
    (match jLookup fs (sl "warnings") with
     | none => true
     | some (.jarr l) => l.all jIsStr
     | some _ => false)
  | _ => false

/-- Pydantic validation of `SimplifyOutput(**data)`: required string
`summary`, optional list `clauses` of `Clause`-conforming objects,
optional list `warnings` of strings. -/
def schemaOK (v : JValue) : Bool :=
  match v with
  | .jobj fs =>
    (match jLookup fs (sl "summary") with
     | some (.jstr _) => true
     | _ => false) &&
    (match jLookup fs (sl "clauses") with
     | none => true
     | some (.jarr l) => l.all clauseSchemaOK
     | some _ => false) &&
    (match jLookup fs (sl "warnings") with
     | none => true
     | some (.jarr l) => l.all jIsStr
     | some _ => false)
  | _ => false

/-- One processed clause of the pipeline response (the dictionary built
in `SimplificationPipeline.simplify`; note it has an `explanation` entry
and no `simplified_text` entry). -/
structure ClauseResult where
  id : Str
  type : Str
  original_text : Str
  explanation : Explanation
  risk_level : Str
  key_entities : Option Entities
  warnings : List Str
deriving DecidableEq, Repr

/-- The pipeline response dictionary
`{"summary": …, "clauses": […], "warnings": […]}`. -/
structure Response where
  summary : Str
  clauses : List ClauseResult
  warnings : List Str
deriving DecidableEq, Repr

/-- JSON image of an optional string (Python `None` → JSON null). -/
def optJson (o : Option Str) : JValue :=
  match o with
  | none => .null
  | some s => .jstr s

/-- JSON image of the entities dict (`{}` for the empty dict). -/
def entitiesJson (e : Option Entities) : JValue :=
  match e with
  | none => .jobj []
  | some en => .jobj [
      (sl "party_1", optJson en.party_1),
      (sl "party_2", optJson en.party_2),
      (sl "amount", optJson en.amount),
      (sl "deadline", optJson en.deadline),
      (sl "conditions", .jbool en.conditions),
      (sl "numerics", .jarr (en.numerics.map .jstr))]

/-- JSON image of the explanation dict. -/
def explanationJson (e : Explanation) : JValue :=
  .jobj [
    (sl "summary", .jstr e.summary),
    (sl "who_is_protected", .jstr e.who_is_protected),
    (sl "what_is_covered", .jstr e.what_is_covered),
    (sl "exceptions", .jstr e.exceptions)]

/-- JSON image of one processed clause, with exactly the keys the
pipeline writes. -/
def clauseJson (c : ClauseResult) : JValue :=
  .jobj [
    (sl "id", .jstr c.id),
    (sl "type", .jstr c.type),
    (sl "original_text", .jstr c.original_text),
    (sl "explanation", explanationJson c.explanation),
    (sl "risk_level", .jstr c.risk_level),
    (sl "key_entities", entitiesJson c.key_entities),
    (sl "warnings", .jarr (c.warnings.map .jstr))]

/-- JSON image of the response (what `json.dumps` serialises and the
validator's `json.loads` recovers). -/
def responseJson (r : Response) : JValue :=
  .jobj [
    (sl "summary", .jstr r.summary),
    (sl "clauses", .jarr (r.clauses.map clauseJson)),
    (sl "warnings", .jarr (r.warnings.map .jstr))]

/-- A call into `SimplifyValidator.log_known_bad` / `_log_bad`
(side effect modelled as data; `output_json` keeps the structured value
whose `json.dumps` string the source passes). -/
structure LogCall where
  original_text : Str
  tag : Str
  short_comment : Str
  output_json : JValue

/-- `SimplifyValidator._semantic_checks`, in source order: empty summary
short-circuits; then the word-count bounds; then the echo check for
originals longer than 50 characters.  The interpolated counts are
rendered exactly as the f-strings do. -/
def semanticChecks (out : Response) (originalText : Str) : List Str :=
  let summary := pyStrip out.summary
  if summary.isEmpty then [sl "Summary is empty or whitespace"]
  else
    let wc := (pySplitWs summary).length
    (if wc < 5 then
      [sl "Summary too short (" ++ sl (toString wc) ++ sl " words, min 5)"]
     else []) ++
    (if 200 < wc then
      [sl "Summary too long (" ++ sl (toString wc) ++ sl " words, max 200)"]
     else []) ++
    (if 50 < originalText.length &&
        lowerS summary = lowerS originalText then
      [sl "Summary identical to input (no simplification occurred)"]
     else [])

/-- Stand-in for the text of pydantic's exception (not part of the
source; only its presence matters). -/
def SCHEMA_ERROR_DETAIL : Str := sl "Schema validation error"

/-- `SimplifyValidator.validate` on the structured output value: the
JSON-decode step succeeds by construction (the pipeline passes
`json.dumps` of the response), then the pydantic schema check, then the
semantic checks; the first failing stage logs a known-bad record and
returns `(False, message)`. -/
def validatorValidate (out : Response) (originalText : Str) :
    (Bool × Str) × List LogCall :=
  if !schemaOK (responseJson out) then
    ((false, SCHEMA_ERROR_DETAIL),
     [{ original_text := originalText, tag := sl "schema_validation_error",
        short_comment := sl "Schema validation failed",
        output_json := responseJson out }])
  else
    match semanticChecks out originalText with
    | [] => ((true, []), [])
    | e :: rest =>
      ((false, joinSep (sl "; ") (e :: rest)),
       [{ original_text := originalText, tag := sl "semantic_validation_error",
          short_comment := e, output_json := responseJson out }])

/-!  The Orchestrator: `SimplificationPipeline.simplify`
(src/pipelines/simplification.py).  -/

/-- `MIN_INPUT_CONTENT_WORDS`. -/
def MIN_INPUT_CONTENT_WORDS : Nat := 5

/-- The content words of the early guard: whitespace-separated tokens
containing at least one letter
(`[w for w in original_text.split() if any(c.isalpha() for c in w)]`). -/
def contentWords (originalText : Str) : List Str :=
  (pySplitWs originalText).filter fun w => w.any Char.isAlpha

/-- The short-input response of the early guard. -/
def shortInputResponse (originalText : Str) : Response :=
  { summary := originalText, clauses := [],
    warnings := [sl "input_too_short_min_5"] }

/-- The `log_known_bad` call of the early guard. -/
def shortInputLogCall (originalText : Str) : LogCall :=
  { original_text := originalText
    tag := sl "input_too_short"
    short_comment := sl "Skipped: " ++
      sl (toString (contentWords originalText).length) ++
      sl " content words, min 5"
    output_json := responseJson (shortInputResponse originalText) }

/-- The per-clause processing step of the orchestrator loop. -/
def processClause (raw : RawClause) : ClauseResult :=
  let clauseText := pyStrip raw.original_text
  let (explanation, explWarnings) := hybridExplainClause clauseText
  let entities := extractEntities clauseText
  let riskLevel := assessRisk clauseText raw.type entities
  let clauseWarnings := explWarnings ++
    (if !(entNumerics entities).isEmpty then [sl "numerics_present"] else []) ++
    (if optTruthy (entDeadline entities) then [sl "time_sensitive"] else []) ++
    (if entConditions entities then [sl "conditional_clause"] else [])
  { id := raw.id, type := raw.type, original_text := clauseText,
    explanation := explanation, risk_level := riskLevel,
    key_entities := entities, warnings := clauseWarnings }

/-- The orchestrator loop over the raw clauses (clauses whose stripped
text is empty are skipped, as by the `continue`). -/
def processClauses (raws : List RawClause) : List ClauseResult :=
  match raws with
  | [] => []
  | raw :: rest =>
    if (pyStrip raw.original_text).isEmpty then processClauses rest
    else processClause raw :: processClauses rest

/-- The document summary: the non-empty per-clause summaries of the
first three processed clauses, joined with single spaces; the original
text when no clause was processed. -/
def documentSummary (processed : List ClauseResult) (originalText : Str) : Str :=
  if !processed.isEmpty then
    joinSep [' '] ((processed.take 3).filterMap fun c =>
      if !c.explanation.summary.isEmpty then some c.explanation.summary else none)
  else originalText

/-- The body of `SimplificationPipeline.simplify` after the input guard
(`original_text = text.strip()` has already been applied).  Returns the
final response together with every known-bad logging call performed.
The `try/except` around `ClauseExtractor.extract_clauses` is vacuous in
the model: the embedded extractor is total, so the single-clause
fallback branch is unreachable. -/
def simplifyCore (text : Str) : Response × List LogCall :=
  let originalText := pyStrip text
  if (contentWords originalText).length < MIN_INPUT_CONTENT_WORDS then
    (shortInputResponse originalText, [shortInputLogCall originalText])
  else
    let rawClauses := extractClauses originalText
    let processed := processClauses rawClauses
    let response : Response := {
      summary := pyStrip (documentSummary processed originalText)
      clauses := processed
      warnings := [] }
    let ((isValid, errMsg), logs) := validatorValidate response originalText
    if isValid then (response, logs)
    else
      ({ response with
          warnings := response.warnings ++ [sl "validation_failed: " ++ errMsg] },
       logs)

/-- `SimplificationPipeline.simplify`: the `isinstance(text, str)` guard
models any non-string argument (including `None`) as `none`; non-string
input and strings that strip to the empty string raise
`ValueError("Input text must be a non-empty string")`. -/
def pipelineSimplify (input : Option Str) : Except Str (Response × List LogCall) :=
  match input with
  | none => .error (sl "Input text must be a non-empty string")
  | some text =>
    if (pyStrip text).isEmpty then
      .error (sl "Input text must be a non-empty string")
    else .ok (simplifyCore text)

/-!  The known-bad store with deduplication:
`SimplifyValidator._log_bad` (src/validators/simplify_validators.py).  -/

/-- One line of `known_bad.jsonl` (the record of `_log_bad`; previews
keep the structured data, timestamps are seconds as natural numbers). -/
structure KnownBadRecord where
  tag : Str
  short_comment : Str
  original_text_preview : Str
  created_at : Nat
deriving DecidableEq, Repr

/-- The process-wide state of the validator: the in-memory dedup map
`_recent_hashes` (as an association list from dedup key to timestamp)
and the append-only `known_bad.jsonl` store. -/
structure BadState where
  recents : List (Str × Nat)
  store : List KnownBadRecord

/-- `_dedup_window_seconds`. -/
def DEDUP_WINDOW_SECONDS : Nat := 3600

/-- The dedup key `hashlib.sha256(f"{original_text}:{tag}")`: the hash
is modelled by its (collision-free) preimage string. -/
def dedupKey (originalText tag : Str) : Str := originalText ++ [':'] ++ tag

/-- `SimplifyValidator._log_bad` at wall-clock time `now` (in seconds):
prune every remembered hash whose age has reached the window, skip the
write if the key is still remembered, otherwise remember the key and
append the record to the store. -/
def logBad (s : BadState) (originalText tag shortComment : Str) (now : Nat) :
    BadState :=
  let key := dedupKey originalText tag
  let pruned := s.recents.filter fun kv => now - kv.2 < DEDUP_WINDOW_SECONDS
  if pruned.any fun kv => kv.1 = key then { s with recents := pruned }
  else
    { recents := (key, now) :: pruned
      store := s.store ++ [{
        tag := tag, short_comment := shortComment,
        original_text_preview := originalText.take 200, created_at := now }] }

/-!  Specification-side definitions (written from the claims' wording,
for comparison with the source-embedded functions above).  -/

/-- Maximum of `f` over a list (0 on the empty list). -/
def maxValBy (f : α → Nat) (l : List α) : Nat :=
  l.foldr (fun a m => Nat.max (f a) m) 0

/-- Modelled from the spec: clause-type inference returns the category
with the maximal pattern-hit count over the fixed ordered category
table, ties broken in favour of the first-declared category, and
`general` when no pattern hits at all (claim C8's wording). -/
def specInferType (text : Str) : Str :=
  let pairs := typeScorePairs text
  match pairs.find? (fun p =>
      decide (maxValBy Prod.snd pairs ≤ p.2) && decide (0 < p.2)) with
  | some p => p.1
  | none => sl "general"

/-- Modelled from the spec: the additive risk score of claim C4 — 3 per
matching high-risk pattern, 2 per matching medium-risk pattern, −1 per
matching low-risk pattern, the clause-type base score, and +1 for each
of a present amount, a present deadline and a true conditions flag. -/
def specRiskScore (clauseText clauseType : Str) (entities : Option Entities) :
    Int :=
  let tl := lowerS clauseText
  3 * ((HIGH_RISK_KEYWORDS.countP fun f => f tl : Nat) : Int) +
  2 * ((MEDIUM_RISK_KEYWORDS.countP fun f => f tl : Nat) : Int) -
  ((LOW_RISK_KEYWORDS.countP fun f => f tl : Nat) : Int) +
  typeRiskScore clauseType +
  (if optTruthy (entAmount entities) then 1 else 0) +
  (if optTruthy (entDeadline entities) then 1 else 0) +
  (if entConditions entities then 1 else 0)

/-- Modelled from the spec: the thresholds of claim C4 — `high` iff the
score is at least 6, `medium` iff it is at least 3 and below 6, `low`
otherwise. -/
def specRiskLevel (clauseText clauseType : Str) (entities : Option Entities) :
    Str :=
  if 6 ≤ specRiskScore clauseText clauseType entities then sl "high"
  else if 3 ≤ specRiskScore clauseText clauseType entities then sl "medium"
  else sl "low"

/-- Modelled from the spec: claim C7's description of the exceptions
field — match the exception patterns against the raw clause text,
discard matches of 25 characters or fewer, keep the single longest
remaining match verbatim, capitalise its first letter, and only then run
it through the simplifier; no such match yields the fixed placeholder. -/
def specClaimExceptionsField (original : Str) : Str :=
  let qualifying :=
    ((exceptionMatches original).map pyStrip).filter fun m => 25 < m.length
  match pyMaxBy List.length qualifying with
  | some m => rbSimplifyNP (pyCapitalize m)
  | none => NO_EXCEPTIONS_PLACEHOLDER

/-!  Helper lemmas.  -/

theorem maxValBy_cons (f : α → Nat) (x : α) (l : List α) :
    maxValBy f (x :: l) = Nat.max (f x) (maxValBy f l) := rfl

theorem le_maxValBy (f : α → Nat) {l : List α} {a : α} (h : a ∈ l) :
    f a ≤ maxValBy f l := by
  induction l with
  | nil => cases h
  | cons x xs ih =>
    rw [maxValBy_cons]
    rcases List.mem_cons.mp h with rfl | h'
    · exact Nat.le_max_left _ _
    · exact le_trans (ih h') (Nat.le_max_right _ _)

theorem natMaxIf (a b : Nat) : Nat.max a b = if a ≤ b then b else a :=
  Nat.max_def

theorem foldl_max_eq_find? (f : α → Nat) (l : List α) (x : α) :
    some (l.foldl (fun best y => if f best < f y then y else best) x) =
    (x :: l).find? (fun a => decide (maxValBy f (x :: l) ≤ f a)) := by
  induction l generalizing x with
  | nil =>
    simp [List.find?, maxValBy]
  | cons y ys ih =>
    rw [List.foldl_cons]
    by_cases hxy : f x < f y
    · have hstep : (if f x < f y then y else x) = y := if_pos hxy
      rw [hstep, ih y]
      have hy : f y ≤ maxValBy f (y :: ys) := by
        rw [maxValBy_cons, natMaxIf]; split_ifs <;> omega
      have hM : maxValBy f (x :: y :: ys) = maxValBy f (y :: ys) := by
        rw [maxValBy_cons, natMaxIf]; split_ifs <;> omega
      simp only [hM]
      symm
      rw [List.find?_cons_of_neg]
      simp only [decide_eq_true_eq]
      omega
    · have hyx : f y ≤ f x := Nat.le_of_not_lt hxy
      have hstep : (if f x < f y then y else x) = x := if_neg hxy
      rw [hstep, ih x]
      have hM : maxValBy f (x :: ys) = maxValBy f (x :: y :: ys) := by
        rw [maxValBy_cons, maxValBy_cons, maxValBy_cons]
        simp only [natMaxIf]; split_ifs <;> omega
      simp only [hM]
      by_cases hx : maxValBy f (x :: y :: ys) ≤ f x
      · rw [List.find?_cons_of_pos, List.find?_cons_of_pos] <;> simpa using hx
      · have hyfail : ¬ (maxValBy f (x :: y :: ys) ≤ f y) := by omega
        rw [List.find?_cons_of_neg, List.find?_cons_of_neg,
          List.find?_cons_of_neg]
        · simpa using hyfail
        · simpa using hx
        · simpa using hx

theorem pyMaxBy_eq_find? (f : α → Nat) (l : List α) (h : ¬ l = []) :
    pyMaxBy f l = l.find? (fun a => decide (maxValBy f l ≤ f a)) := by
  cases l with
  | nil => exact absurd rfl h
  | cons x xs => simpa [pyMaxBy] using foldl_max_eq_find? f xs x

theorem pyMaxBy_mem {f : α → Nat} {l : List α} {m : α}
    (h : pyMaxBy f l = some m) : m ∈ l := by
  cases l with
  | nil => cases h
  | cons x xs =>
    have := (pyMaxBy_eq_find? f (x :: xs) (by simp)).symm.trans h
    exact List.mem_of_find?_eq_some this

theorem pyMaxBy_maximal {f : α → Nat} {l : List α} {m : α}
    (h : pyMaxBy f l = some m) : ∀ y ∈ l, f y ≤ f m := by
  intro y hy
  cases l with
  | nil => cases h
  | cons x xs =>
    have hfind := (pyMaxBy_eq_find? f (x :: xs) (by simp)).symm.trans h
    have hmax := List.find?_some hfind
    have : maxValBy f (x :: xs) ≤ f m := by simpa using hmax
    exact le_trans (le_maxValBy f hy) this

theorem maxValBy_filter_pos (f : α → Nat) (l : List α) :
    maxValBy f (l.filter fun a => decide (0 < f a)) = maxValBy f l := by
  induction l with
  | nil => rfl
  | cons a as ih =>
    rw [List.filter_cons]
    by_cases h : 0 < f a
    · rw [if_pos (decide_eq_true h), maxValBy_cons, maxValBy_cons, ih]
    · have hz : f a = 0 := by omega
      rw [if_neg (by simpa using h), ih, maxValBy_cons, hz]
      exact (Nat.max_eq_right (Nat.zero_le _)).symm

theorem find?_filter (q p : α → Bool) (l : List α) :
    (l.filter q).find? p = l.find? fun a => q a && p a := by
  induction l with
  | nil => rfl
  | cons a as ih =>
    rw [List.filter_cons]
    by_cases hq : q a
    · rw [if_pos hq]
      by_cases hp : p a
      · rw [List.find?_cons_of_pos _ hp,
          List.find?_cons_of_pos _ (by rw [hq, hp]; rfl)]
      · rw [List.find?_cons_of_neg _ hp,
          List.find?_cons_of_neg _ (by rw [hq]; simpa using hp), ih]
    · rw [if_neg hq, ih,
        List.find?_cons_of_neg _ (by rw [Bool.not_eq_true] at hq; rw [hq]; simp)]

theorem foldl_if_add (l : List (Str → Bool)) (t : Str) (c : Int) :
    ∀ init : Int,
      l.foldl (fun a f => if f t then a + c else a) init =
        init + c * ((l.countP fun f => f t : Nat) : Int) := by
  induction l with
  | nil => intro init; simp
  | cons f fs ih =>
    intro init
    rw [List.foldl_cons, List.countP_cons]
    by_cases h : f t
    · rw [if_pos h, ih]
      simp only [h, if_pos]
      push_cast
      ring
    · rw [if_neg h, ih]
      simp only [h, Bool.false_eq_true, if_neg, not_false_iff]
      push_cast
      ring

theorem foldl_if_sub (l : List (Str → Bool)) (t : Str) :
    ∀ init : Int,
      l.foldl (fun a f => if f t then a - 1 else a) init =
        init - ((l.countP fun f => f t : Nat) : Int) := by
  induction l with
  | nil => intro init; simp
  | cons f fs ih =>
    intro init
    rw [List.foldl_cons, List.countP_cons]
    by_cases h : f t
    · rw [if_pos h, ih]
      simp only [h, if_pos]
      push_cast
      ring
    · rw [if_neg h, ih]
      simp only [h, Bool.false_eq_true, if_neg, not_false_iff]
      push_cast
      ring

theorem numSplitAux_length (fuel : Nat) :
    ∀ (acc : Str) (atLS : Bool) (cs : Str),
      (numSplitAux fuel acc atLS cs).length =
        2 * numCountAux fuel atLS cs + 1 := by
  induction fuel with
  | zero => intro acc atLS cs; simp [numSplitAux, numCountAux]
  | succ n ih =>
    intro acc atLS cs
    cases h : markerMatchAt atLS cs with
    | some v =>
      obtain ⟨cap, lw, rest⟩ := v
      simp only [numSplitAux, numCountAux, h, List.length_cons, ih]
      ring
    | none =>
      cases cs with
      | nil => simp [numSplitAux, numCountAux, h]
      | cons c rest => simp only [numSplitAux, numCountAux, h, ih]

theorem numberedRawSplit_length (text : Str) :
    (numberedRawSplit text).length = 2 * markerCount text + 1 :=
  numSplitAux_length (text.length + 1) [] true text

theorem dropWhile_idem (p : Char → Bool) (l : Str) :
    (l.dropWhile p).dropWhile p = l.dropWhile p := by
  induction l with
  | nil => rfl
  | cons c rest ih =>
    by_cases h : p c
    · rw [List.dropWhile_cons_of_pos h, ih]
    · rw [List.dropWhile_cons_of_neg h, List.dropWhile_cons_of_neg h]

theorem exists_dropWhile_append (p : Char → Bool) (l : Str) :
    ∃ t : Str, l = t ++ l.dropWhile p := by
  induction l with
  | nil => exact ⟨[], rfl⟩
  | cons c rest ih =>
    by_cases h : p c
    · obtain ⟨t, ht⟩ := ih
      exact ⟨c :: t, by rw [List.dropWhile_cons_of_pos h, List.cons_append, ← ht]⟩
    · exact ⟨[], by rw [List.dropWhile_cons_of_neg h, List.nil_append]⟩

theorem length_dropWhile_le' (p : Char → Bool) (l : Str) :
    (l.dropWhile p).length ≤ l.length := by
  induction l with
  | nil => exact Nat.le_refl _
  | cons c rest ih =>
    by_cases h : p c
    · rw [List.dropWhile_cons_of_pos h]
      exact le_trans ih (Nat.le_succ _)
    · rw [List.dropWhile_cons_of_neg h]

theorem dropWhile_append_self {p : Char → Bool} {a b : Str}
    (h : (a ++ b).dropWhile p = a ++ b) : a.dropWhile p = a := by
  cases a with
  | nil => rfl
  | cons c as =>
    by_cases hc : p c
    · exfalso
      rw [List.cons_append, List.dropWhile_cons_of_pos hc] at h
      have hlen := congrArg List.length h
      have := length_dropWhile_le' p (as ++ b)
      simp only [List.length_cons] at hlen
      omega
    · rw [List.dropWhile_cons_of_neg hc]

theorem trimLeft_idem (s : Str) : trimLeft (trimLeft s) = trimLeft s :=
  dropWhile_idem isPySpace s

theorem trimRight_idem (s : Str) : trimRight (trimRight s) = trimRight s := by
  unfold trimRight
  rw [List.reverse_reverse, dropWhile_idem]

theorem trimRight_append_decomp (m : Str) :
    ∃ t : Str, m = trimRight m ++ t := by
  obtain ⟨u, hu⟩ := exists_dropWhile_append isPySpace m.reverse
  refine ⟨u.reverse, ?_⟩
  unfold trimRight
  have := congrArg List.reverse hu
  rw [List.reverse_reverse, List.reverse_append] at this
  exact this

theorem trimLeft_trimRight_of_trimLeft (m : Str) (hm : trimLeft m = m) :
    trimLeft (trimRight m) = trimRight m := by
  obtain ⟨t, ht⟩ := trimRight_append_decomp m
  have h' : (trimRight m ++ t).dropWhile isPySpace = trimRight m ++ t := by
    rw [← ht]; exact hm
  exact dropWhile_append_self h'

theorem pyStrip_idem (s : Str) : pyStrip (pyStrip s) = pyStrip s := by
  unfold pyStrip
  rw [trimLeft_trimRight_of_trimLeft (trimLeft s) (trimLeft_idem s),
    trimRight_idem]

theorem pyStrip_normalizeWhitespace (s : Str) :
    pyStrip (normalizeWhitespace s) = normalizeWhitespace s := by
  unfold normalizeWhitespace
  exact pyStrip_idem _

theorem isPrefixOf_iff_exists (a : Str) :
    ∀ b : Str, a.isPrefixOf b = true ↔ ∃ t : Str, b = a ++ t := by
  induction a with
  | nil => intro b; simp [List.isPrefixOf]
  | cons c as ih =>
    intro b
    cases b with
    | nil => simp [List.isPrefixOf]
    | cons d bs =>
      simp only [List.isPrefixOf, Bool.and_eq_true, beq_iff_eq,
        List.cons_append, ih]
      constructor
      · rintro ⟨rfl, t, rfl⟩
        exact ⟨t, rfl⟩
      · rintro ⟨t, ht⟩
        injection ht with h1 h2
        exact ⟨h1.symm, t, h2⟩

theorem strIn_iff (needle hay : Str) :
    strIn needle hay = true ↔ ∃ u v : Str, hay = u ++ needle ++ v := by
  induction hay with
  | nil =>
    simp only [strIn, List.isEmpty_iff]
    constructor
    · rintro rfl; exact ⟨[], [], rfl⟩
    · rintro ⟨u, v, huv⟩
      cases u <;> cases needle <;> simp_all
  | cons c rest ih =>
    simp only [strIn, Bool.or_eq_true]
    constructor
    · rintro (hpre | hin)
      · obtain ⟨t, ht⟩ := (isPrefixOf_iff_exists needle (c :: rest)).mp hpre
        exact ⟨[], t, by rw [List.nil_append, ht]⟩
      · obtain ⟨u, v, huv⟩ := ih.mp hin
        exact ⟨c :: u, v, by rw [huv]; rfl⟩
    · rintro ⟨u, v, huv⟩
      cases u with
      | nil =>
        left
        rw [List.nil_append] at huv
        exact (isPrefixOf_iff_exists needle (c :: rest)).mpr ⟨v, huv⟩
      | cons u0 us =>
        right
        rw [List.cons_append, List.cons_append] at huv
        exact ih.mpr ⟨us, v, by injection huv with _ h2⟩

theorem strIn_trans {a b c : Str} (h1 : strIn a b = true)
    (h2 : strIn b c = true) : strIn a c = true := by
  obtain ⟨u1, v1, hb⟩ := (strIn_iff a b).mp h1
  obtain ⟨u2, v2, hc⟩ := (strIn_iff b c).mp h2
  refine (strIn_iff a c).mpr ⟨u2 ++ u1, v1 ++ v2, ?_⟩
  rw [hc, hb]
  simp [List.append_assoc]

/-!  Claim theorems.  -/

/-- C8: for every clause text, `ClauseExtractor._infer_type` returns the
category with the maximum pattern-hit count over the fixed ordered
category table, breaking score ties in favour of the first-declared
category (never by arbitrary map iteration order), and returns `general`
when no pattern hits at all — i.e. it coincides with the specification
function `specInferType` (first-declared category attaining the maximal
positive score, else `general`). -/
theorem c8_clause_type_first_declared_tie_break (t : Str) :
    inferType t = specInferType t := by
  simp only [inferType, specInferType]
  by_cases hfl : (typeScorePairs t).filter (fun p => decide (0 < p.2)) = []
  · rw [hfl]
    have hall : ∀ p ∈ typeScorePairs t, ¬ (0 < p.2) := by
      intro p hp
      have := List.filter_eq_nil_iff.mp hfl p hp
      simpa using this
    have hfind : (typeScorePairs t).find?
        (fun p => decide (maxValBy Prod.snd (typeScorePairs t) ≤ p.2) &&
          decide (0 < p.2)) = none := by
      rw [List.find?_eq_none]
      intro p hp
      simp only [Bool.and_eq_true, decide_eq_true_eq, not_and]
      intro _
      exact hall p hp
    rw [hfind]
    rfl
  · rw [pyMaxBy_eq_find? Prod.snd _ hfl, maxValBy_filter_pos, find?_filter]
    have hcomm : (fun a : Str × Nat =>
        decide (0 < a.2) && decide (maxValBy Prod.snd (typeScorePairs t) ≤ a.2)) =
        (fun a : Str × Nat =>
          decide (maxValBy Prod.snd (typeScorePairs t) ≤ a.2) &&
            decide (0 < a.2)) := by
      funext a
      exact Bool.and_comm _ _
    rw [hcomm]

/-- C4 (amended): for every non-empty clause text, `assess_risk` returns
exactly the level determined by the additive score of the claim (3 per
matching high-risk pattern, 2 per medium, −1 per low, the clause-type
base score, +1 per present amount / present deadline / true conditions
flag; `high` iff the score is ≥ 6, `medium` iff 3 ≤ score < 6, `low`
otherwise), and the result is always one of `low`, `medium`, `high`;
determinism is immediate because the embedding is a pure function.  The
empty clause text is excluded: the source short-circuits it to `low`
regardless of the score (see the counterexample). -/
theorem c4_risk_score_thresholds (t ty : Str) (ent : Option Entities)
    (h : ¬ t = []) :
    assessRisk t ty ent = specRiskLevel t ty ent ∧
    (assessRisk t ty ent = sl "low" ∨ assessRisk t ty ent = sl "medium" ∨
      assessRisk t ty ent = sl "high") := by
  have hne : t.isEmpty = false := by
    cases t with
    | nil => exact absurd rfl h
    | cons c r => rfl
  have hscore : ∀ init : Int,
      LOW_RISK_KEYWORDS.foldl (fun a f => if f (lowerS t) then a - 1 else a)
        (MEDIUM_RISK_KEYWORDS.foldl (fun a f => if f (lowerS t) then a + 2 else a)
          (HIGH_RISK_KEYWORDS.foldl (fun a f => if f (lowerS t) then a + 3 else a)
            init)) =
        init + 3 * ((HIGH_RISK_KEYWORDS.countP fun f => f (lowerS t) : Nat) : Int)
          + 2 * ((MEDIUM_RISK_KEYWORDS.countP fun f => f (lowerS t) : Nat) : Int)
          - ((LOW_RISK_KEYWORDS.countP fun f => f (lowerS t) : Nat) : Int) := by
    intro init
    rw [foldl_if_add, foldl_if_add, foldl_if_sub]
  have hlevel : assessRisk t ty ent =
      (if 6 ≤ specRiskScore t ty ent then sl "high"
       else if 3 ≤ specRiskScore t ty ent then sl "medium" else sl "low") := by
    simp only [assessRisk, hne, Bool.false_eq_true, if_neg, not_false_iff]
    rw [hscore 0]
    have harith :
        (0 : Int) + 3 * ((HIGH_RISK_KEYWORDS.countP fun f => f (lowerS t) : Nat) : Int)
          + 2 * ((MEDIUM_RISK_KEYWORDS.countP fun f => f (lowerS t) : Nat) : Int)
          - ((LOW_RISK_KEYWORDS.countP fun f => f (lowerS t) : Nat) : Int)
          + typeRiskScore ty
          + (if optTruthy (entAmount ent) then 1 else 0)
          + (if optTruthy (entDeadline ent) then 1 else 0)
          + (if entConditions ent then 1 else 0) = specRiskScore t ty ent := by
      simp only [specRiskScore]
      ring
    rw [harith]
  refine ⟨?_, ?_⟩
  · rw [hlevel]
    simp only [specRiskLevel]
  · rw [hlevel]
    split_ifs
    · right; right; rfl
    · right; left; rfl
    · left; rfl

/-- C4 (counterexample): on the empty clause text the source returns
`low` unconditionally, while the claimed score formula (base score 3 for
`liability`, no other contributions) yields `medium`; so the claimed
equivalence "level = thresholded score" fails at
`("", "liability", empty entities)`. -/
theorem c4_counterexample :
    assessRisk [] (sl "liability") none = sl "low" ∧
    specRiskLevel [] (sl "liability") none = sl "medium" ∧
    assessRisk [] (sl "liability") none ≠ specRiskLevel [] (sl "liability") none := by
  refine ⟨rfl, by decide, by decide⟩

/-- C4 (witness): the amended theorem applied at the concrete input
`("liability breach", "general", no entities)`, whose score is
3 + 3 + 1 = 7, giving `high`. -/
theorem c4_witness :
    ¬ (sl "liability breach") = [] ∧
    (assessRisk (sl "liability breach") (sl "general") none =
        specRiskLevel (sl "liability breach") (sl "general") none ∧
      (assessRisk (sl "liability breach") (sl "general") none = sl "low" ∨
        assessRisk (sl "liability breach") (sl "general") none = sl "medium" ∨
        assessRisk (sl "liability breach") (sl "general") none = sl "high")) :=
  ⟨by decide, c4_risk_score_thresholds (sl "liability breach") (sl "general")
    none (by decide)⟩

/-- C2 (amended): `SimplificationPipeline.simplify` raises its typed
`ValueError` exactly when the argument is not a string (including
`None`), or is a string that strips to the empty string; every string
with at least one non-whitespace character returns normally.  (The claim
as frozen — only non-string input raises — fails on the empty string,
see the counterexample.) -/
theorem c2_input_guard (input : Option Str) :
    (pipelineSimplify input).isOk = true ↔
      ∃ s : Str, input = some s ∧ ¬ pyStrip s = [] := by
  cases input with
  | none =>
    simp [pipelineSimplify, Except.isOk, Except.toBool]
  | some s =>
    by_cases h : (pyStrip s).isEmpty
    · have hnil : pyStrip s = [] := List.isEmpty_iff.mp h
      simp [pipelineSimplify, h, Except.isOk, Except.toBool, hnil]
    · have hnil : ¬ pyStrip s = [] := by
        intro hc
        rw [hc] at h
        exact h rfl
      simp [pipelineSimplify, h, Except.isOk, Except.toBool, hnil]

/-- C2 (counterexample): the empty string is a string input, yet
`simplify` raises the `ValueError` rather than returning normally. -/
theorem c2_counterexample :
    pipelineSimplify (some (sl "")) =
      Except.error (sl "Input text must be a non-empty string") := rfl

/-- C3 (amended): for every string input with at least one
non-whitespace character whose content-word count is below 5,
`simplify` returns the short-input response — summary equal to the
stripped original, no clauses, warnings exactly
`["input_too_short_min_5"]` — and performs exactly one known-bad logging
call, tagged `input_too_short`.  (The claim as frozen also covers
whitespace-only strings, which instead raise the input `ValueError`; see
the counterexample.) -/
theorem c3_short_input_guard (s : Str) (h1 : ¬ pyStrip s = [])
    (h2 : (contentWords (pyStrip s)).length < 5) :
    pipelineSimplify (some s) =
      Except.ok (shortInputResponse (pyStrip s), [shortInputLogCall (pyStrip s)]) ∧
    (shortInputResponse (pyStrip s)).summary = pyStrip s ∧
    (shortInputResponse (pyStrip s)).clauses = [] ∧
    (shortInputResponse (pyStrip s)).warnings = [sl "input_too_short_min_5"] ∧
    (shortInputLogCall (pyStrip s)).tag = sl "input_too_short" := by
  have hne : (pyStrip s).isEmpty = false := by
    cases hh : pyStrip s with
    | nil => exact absurd hh h1
    | cons c r => rfl
  refine ⟨?_, rfl, rfl, rfl, rfl⟩
  simp only [pipelineSimplify, hne, Bool.false_eq_true, if_neg, not_false_iff,
    simplifyCore]
  rw [if_pos]
  exact h2

/-- C3 (counterexample): the whitespace-only string `"   "` has 0
content words (fewer than 5), but `simplify` raises the input
`ValueError` instead of returning the claimed short-input result. -/
theorem c3_counterexample :
    (contentWords (pyStrip (sl "   "))).length < 5 ∧
    pipelineSimplify (some (sl "   ")) =
      Except.error (sl "Input text must be a non-empty string") := by
  refine ⟨by decide, rfl⟩

/-- C3 (witness): the amended theorem applied at `"Hi there."`
(2 content words). -/
theorem c3_witness :
    ¬ pyStrip (sl "Hi there.") = [] ∧
    (contentWords (pyStrip (sl "Hi there."))).length < 5 ∧
    pipelineSimplify (some (sl "Hi there.")) =
      Except.ok (shortInputResponse (pyStrip (sl "Hi there.")),
        [shortInputLogCall (pyStrip (sl "Hi there."))]) :=
  ⟨by decide, by decide,
    (c3_short_input_guard (sl "Hi there.") (by decide) (by decide)).1⟩

/-- C6 (amended): `_split_text` accepts the numbered-section split
exactly when at least two numbered-section markers match — equivalently,
when the raw `re.split` list, which interleaves the text pieces with the
captured markers, has more than 3 entries; otherwise it falls through to
the sentence-accumulation strategy, and if that yields no segments the
whole input becomes a single clause.  (The frozen claim's condition —
more than 3 *segments* from the split — fails: two markers already
produce only 2 or 3 segments yet are accepted; see the counterexample.) -/
theorem c6_numbered_split_acceptance (t : Str) :
    splitText t =
      if 2 ≤ markerCount t then numberedSegments t
      else if (sentenceSegments t).isEmpty then [t] else sentenceSegments t := by
  have hlen := numberedRawSplit_length t
  simp only [splitText, numberedSegments]
  by_cases h : 2 ≤ markerCount t
  · rw [if_pos (by omega), if_pos h]
  · rw [if_neg (by omega), if_neg h]

/-- C6 (counterexample): with exactly two numbered sections the numbered
split yields only 2 segments (not more than 3), yet `_split_text`
accepts it as the clause boundary set instead of falling through to the
sentence-accumulation strategy, contradicting the claim as stated. -/
theorem c6_counterexample :
    (numberedSegments
        (sl "1. First section text here\n2. Second section text here")).length ≤ 3 ∧
    splitText (sl "1. First section text here\n2. Second section text here") =
      numberedSegments
        (sl "1. First section text here\n2. Second section text here") ∧
    ¬ splitText (sl "1. First section text here\n2. Second section text here") =
      (if (sentenceSegments
            (sl "1. First section text here\n2. Second section text here")).isEmpty
       then [sl "1. First section text here\n2. Second section text here"]
       else sentenceSegments
         (sl "1. First section text here\n2. Second section text here")) := by
  refine ⟨by decide, by decide, by decide⟩

/-- C7 (amended): the exceptions explanation field is computed by
matching the exception patterns against the raw clause text and
discarding matches of 25 characters or fewer, but each surviving match
is rule-simplified *first*; among these already-simplified candidates
the longest (the first on ties) is kept, its first letter is
capitalised, and the field is that string passed through the simplifier
once more; when no candidate survives the field is the simplified fixed
placeholder.  (The frozen claim keeps the longest *raw* match verbatim
and simplifies only afterwards — the counterexample separates the two.) -/
theorem c7_exceptions_longest_candidate (t : Str) :
    (exceptionCandidates t = [] ∧
      (hybridExplainClause t).1.exceptions =
        rbSimplifyNP NO_EXCEPTIONS_PLACEHOLDER) ∨
    (∃ c, c ∈ exceptionCandidates t ∧
      (∀ d ∈ exceptionCandidates t, d.length ≤ c.length) ∧
      (hybridExplainClause t).1.exceptions = rbSimplifyNP (pyCapitalize c)) := by
  have hfield : (hybridExplainClause t).1.exceptions =
      rbSimplifyNP (extractExceptionsField t) := rfl
  cases hc : exceptionCandidates t with
  | nil =>
    left
    refine ⟨rfl, ?_⟩
    rw [hfield]
    simp [extractExceptionsField, hc]
  | cons x xs =>
    right
    cases hm : pyMaxBy List.length (x :: xs) with
    | none =>
      simp [pyMaxBy] at hm
    | some m =>
      refine ⟨m, pyMaxBy_mem hm, pyMaxBy_maximal hm, ?_⟩
      rw [hfield]
      simp [extractExceptionsField, hc, hm]

set_option maxRecDepth 100000

/-- C7 (counterexample): on a clause with two exception matches, the
source selects by length of the *simplified* candidates (here the
`unless … herein …` match, whose simplification grows to 39 characters)
while the claim's computation keeps the longest *raw* match (the
`except … hereby … ` match, 33 raw characters, which shrinks under
simplification), so the produced fields differ. -/
theorem c7_counterexample :
    (hybridExplainClause
        (sl "except aaaa aaaa hereby aaaa aaaa. unless bbb bbb bbb herein bbb.")).1.exceptions =
      sl "Unless bbb bbb bbb in this document bbb" ∧
    specClaimExceptionsField
        (sl "except aaaa aaaa hereby aaaa aaaa. unless bbb bbb bbb herein bbb.") =
      sl "Except aaaa aaaa aaaa aaaa" ∧
    ¬ (hybridExplainClause
        (sl "except aaaa aaaa hereby aaaa aaaa. unless bbb bbb bbb herein bbb.")).1.exceptions =
      specClaimExceptionsField
        (sl "except aaaa aaaa hereby aaaa aaaa. unless bbb bbb bbb herein bbb.") := by
  refine ⟨by decide, by decide, by decide⟩

/-- C9 (amended): for every text `x` that is already whitespace-normal
(`_normalize_whitespace` fixes it) and free of legalese tokens (neither
the lexical-substitution pass nor the redundant-phrase pass changes it),
`simplify` with the default flags returns `x` itself, and is therefore
idempotent on `x`.  (For texts that are pattern-free but not
whitespace-normal the frozen claim fails: normalisation can *create* a
pattern occurrence, see the counterexample.) -/
theorem c9_simplify_idempotent_on_normalized (x : Str)
    (h1 : normalizeWhitespace x = x)
    (h2 : applyLexicalSubstitutions x = x)
    (h3 : removeRedundantPhrases x = x) :
    rbSimplify x true false = x ∧
    rbSimplify (rbSimplify x true false) true false = rbSimplify x true false := by
  have hfix : rbSimplify x true false = x := by
    by_cases hx : x = []
    · subst hx; rfl
    · have hstrip : pyStrip x = x := by
        conv_lhs => rw [← h1]
        rw [pyStrip_normalizeWhitespace, h1]
      have hne : x.isEmpty = false := by
        cases x with
        | nil => exact absurd rfl hx
        | cons a b => rfl
      have hne2 : (pyStrip x).isEmpty = false := by rw [hstrip]; exact hne
      have hcond : (x.isEmpty || (pyStrip x).isEmpty) = false := by
        rw [hne, hne2]; rfl
      simp only [rbSimplify, hcond, Bool.false_eq_true, if_neg, not_false_iff]
      rw [hstrip, h2, h3]
      exact h1
  exact ⟨hfix, by simp only [hfix]⟩

/-- C9 (counterexample): the text `"null  and  void"` (two spaces) is
free of legalese tokens — no substitution or removal pattern applies to
it, since the pattern `null and void` requires single spaces — yet
`simplify` is not idempotent on it: the first pass only normalises the
whitespace to `"null and void"`, and the second pass then rewrites it to
`"void"`. -/
theorem c9_counterexample :
    applyLexicalSubstitutions (sl "null  and  void") = sl "null  and  void" ∧
    removeRedundantPhrases (sl "null  and  void") = sl "null  and  void" ∧
    ¬ rbSimplify (rbSimplify (sl "null  and  void") true false) true false =
        rbSimplify (sl "null  and  void") true false := by
  refine ⟨by decide, by decide, by decide⟩

/-- C9 (witness): the amended theorem applied at the concrete
whitespace-normal, pattern-free text `"plain words here."`. -/
theorem c9_witness :
    normalizeWhitespace (sl "plain words here.") = sl "plain words here." ∧
    applyLexicalSubstitutions (sl "plain words here.") = sl "plain words here." ∧
    removeRedundantPhrases (sl "plain words here.") = sl "plain words here." ∧
    (rbSimplify (sl "plain words here.") true false = sl "plain words here." ∧
      rbSimplify (rbSimplify (sl "plain words here.") true false) true false =
        rbSimplify (sl "plain words here.") true false) :=
  ⟨by decide, by decide, by decide,
    c9_simplify_idempotent_on_normalized (sl "plain words here.")
      (by decide) (by decide) (by decide)⟩

/-- C5: starting from a clean dedup map, logging the same
`(original_text, tag)` pair twice appends exactly one `KnownBadRecord`
when the second call falls within the 1-hour window, and exactly two
records when the window has elapsed (the map is pruned on every
write). -/
theorem c5_dedup_one_hour_window (s0 : BadState) (text tag c1 c2 : Str)
    (t1 t2 : Nat) (hinit : s0.recents = []) (hle : t1 ≤ t2) :
    (t2 - t1 < DEDUP_WINDOW_SECONDS →
      (logBad (logBad s0 text tag c1 t1) text tag c2 t2).store.length =
        s0.store.length + 1) ∧
    (DEDUP_WINDOW_SECONDS ≤ t2 - t1 →
      (logBad (logBad s0 text tag c1 t1) text tag c2 t2).store.length =
        s0.store.length + 2) := by
  have hs1 : logBad s0 text tag c1 t1 =
      { recents := [(dedupKey text tag, t1)],
        store := s0.store ++
          [{ tag := tag, short_comment := c1,
             original_text_preview := text.take 200, created_at := t1 }] } := by
    simp [logBad, hinit]
  constructor
  · intro hw
    rw [hs1]
    simp [logBad, List.filter, hw, List.length_append]
  · intro hw
    have hnw : ¬ (t2 - t1 < DEDUP_WINDOW_SECONDS) := by omega
    rw [hs1]
    simp [logBad, List.filter, hnw, List.length_append]

/-- C5 (witness): the theorem applied at a concrete clean state with the
two calls 10 seconds apart (within the window). -/
theorem c5_witness :
    (⟨[], []⟩ : BadState).recents = [] ∧ (0 : Nat) ≤ 10 ∧
    ((10 - 0 < DEDUP_WINDOW_SECONDS →
      (logBad (logBad ⟨[], []⟩ (sl "t") (sl "g") (sl "c") 0) (sl "t") (sl "g")
          (sl "d") 10).store.length =
        (⟨[], []⟩ : BadState).store.length + 1) ∧
    (DEDUP_WINDOW_SECONDS ≤ 10 - 0 →
      (logBad (logBad ⟨[], []⟩ (sl "t") (sl "g") (sl "c") 0) (sl "t") (sl "g")
          (sl "d") 10).store.length =
        (⟨[], []⟩ : BadState).store.length + 2)) :=
  ⟨rfl, by decide,
    c5_dedup_one_hour_window ⟨[], []⟩ (sl "t") (sl "g") (sl "c") (sl "d") 0 10
      rfl (by decide)⟩

/-- C10: the conditions flag of `EntityExtractor.extract_entities` is
decided by raw substring containment of the condition keywords in the
lowercased clause text, so every clause text containing the word
`notification` — which contains `if` as a substring — reports
`conditions = true`, and the claimed risk-score formula is consequently
one point higher than with the flag off. -/
theorem c10_conditions_raw_substring (t : Str)
    (h : strIn (sl "notification") (lowerS t) = true) :
    (∃ e : Entities, extractEntities t = some e ∧ e.conditions = true) ∧
    (∀ ty : Str, ∀ e : Entities,
      specRiskScore t ty (some { e with conditions := true }) =
        specRiskScore t ty (some { e with conditions := false }) + 1) := by
  constructor
  · have hne : t.isEmpty = false := by
      cases t with
      | nil => exact absurd h (by decide)
      | cons a b => rfl
    have hif : strIn (sl "if") (lowerS t) = true := strIn_trans (by decide) h
    have hsome : extractEntities t = some {
        party_1 := (entityParties t).head?
        party_2 := (entityParties t).tail.head?
        amount := (entityAmounts t).head?
        deadline := (entityDeadlines t).head?
        conditions := CONDITION_KEYWORDS.any fun kw => strIn kw (lowerS t)
        numerics := (reFindall numericMatchAt t).take 5 } := by
      simp only [extractEntities, hne, Bool.false_eq_true, if_neg, not_false_iff]
    refine ⟨_, hsome, ?_⟩
    show (CONDITION_KEYWORDS.any fun kw => strIn kw (lowerS t)) = true
    apply List.any_eq_true.mpr
    exact ⟨sl "if", by decide, hif⟩
  · intro ty e
    simp [specRiskScore, entConditions, entAmount, entDeadline]

/-- C10 (witness): the theorem applied at the concrete clause text
`"the notification was sent yesterday"`, which contains no standalone
conditional keyword. -/
theorem c10_witness :
    strIn (sl "notification") (lowerS (sl "the notification was sent yesterday")) =
      true ∧
    ((∃ e : Entities,
        extractEntities (sl "the notification was sent yesterday") = some e ∧
        e.conditions = true) ∧
      (∀ ty : Str, ∀ e : Entities,
        specRiskScore (sl "the notification was sent yesterday") ty
            (some { e with conditions := true }) =
          specRiskScore (sl "the notification was sent yesterday") ty
            (some { e with conditions := false }) + 1)) :=
  ⟨by decide,
    c10_conditions_raw_substring (sl "the notification was sent yesterday")
      (by decide)⟩

/-- C1: evaluation of the full pipeline at the failing input
`"The buyer shall pay now."` — the returned result has one clause, its
serialised form does NOT conform to the `SimplifyOutput`/`Clause` schema
the QualityGate validates against (the pipeline emits `explanation` but
the pydantic `Clause` model requires the absent field
`simplified_text`), and the document warnings carry the resulting
`validation_failed:` tag.  This refutes the claimed round-trip shape
invariant for every clause-bearing output. -/
theorem c1_schema_gate_rejects_pipeline_output :
    (pipelineSimplify (some (sl "The buyer shall pay now."))).toOption.map
        (fun p => (p.1.clauses.length, schemaOK (responseJson p.1), p.1.warnings)) =
      some (1, false, [sl "validation_failed: " ++ SCHEMA_ERROR_DETAIL]) := by
  decide
